import Mathlib

/-!
Verification development for the py_auto_cache repository.

The Python sources are modelled by a shallow embedding:

* machine state is passed explicitly; every operation returns a pair of an
  `Except PyErr` result (normal return or raised exception) and the new state;
* Python `time.time()` is modelled by an ambient clock `clock : Nat -> Rat`
  together with a tick counter in the state: each call to `time.time()`
  reads `clock tick` and advances `tick`, mirroring the call sites in the
  source exactly (including short-circuit evaluation that skips the call);
* a Python `dict` is an association list with unique keys, insertion order
  preserved (`alGet`, `alSet`, `alDel` below);
* `float` durations and timestamps are rationals.
-/

/-- The error taxonomy of the repository, as raised kinds.  `clientError`
models a backend-native failure re-raised as a `ClientError` subtype by
`wrap_client_exception`; `parameterError` is `ParameterError` from
`dict_cache.py` and `file_cache.py`; `valueError` is the `ValueError` raised
by `Cache.increase` on a non-numeric target (re-raised through
`engine_error_wrapper` as a subclass that is still a `ValueError`);
`assertionError` models a failed `assert`; `cacheMiss` is the internal
`CacheMiss` control signal of `auto_cache.py`; `unpickleError` models
`pickle.loads` failing on a corrupt stored string. -/
inductive PyErr where
  | clientError
  | parameterError
  | valueError
  | assertionError
  | cacheMiss
  | unpickleError
  deriving DecidableEq, Repr

/-- Result of one stateful Python operation: either a normal return or a
raised exception, together with the state at the moment of return or raise
(Python has no rollback on exceptions). -/
abbrev Res (σ A : Type) := Except PyErr A × σ

/-- Sequencing of stateful operations: an exception propagates, a normal
value feeds the continuation.  Mirrors ordinary Python statement order. -/
def rbind {σ A B : Type} (r : Res σ A) (f : A → σ → Res σ B) : Res σ B :=
  match r with
  | (.error e, s) => (.error e, s)
  | (.ok a, s) => f a s

/-- `transcode` from `dict_cache.py` / `util.py`: on a `str` input (the only
case arising in this development, where all keys and values are already
strings) it is the identity. -/
def transcode (s : String) : String := s

/-- Lookup in a Python dict modelled as an association list
(first binding wins; keys are unique by construction). -/
def alGet {α : Type} : List (String × α) → String → Option α
  | [], _ => none
  | (k', v) :: l, k => if k' = k then some v else alGet l k

/-- Python dict assignment `d[k] = v`: replaces in place if the key exists,
otherwise appends (insertion order semantics). -/
def alSet {α : Type} : List (String × α) → String → α → List (String × α)
  | [], k, v => [(k, v)]
  | (k', v') :: l, k, v => if k' = k then (k, v) :: l else (k', v') :: alSet l k v

/-- Python `del d[k]`: removes the binding of `k` if present. -/
def alDel {α : Type} : List (String × α) → String → List (String × α)
  | [], _ => []
  | (k', v') :: l, k => if k' = k then l else (k', v') :: alDel l k

@[simp] theorem alGet_nil {α : Type} (k : String) : alGet ([] : List (String × α)) k = none := rfl

@[simp] theorem alGet_cons {α : Type} (k' k : String) (v : α) (l : List (String × α)) :
    alGet ((k', v) :: l) k = if k' = k then some v else alGet l k := rfl

@[simp] theorem alSet_nil {α : Type} (k : String) (v : α) :
    alSet ([] : List (String × α)) k v = [(k, v)] := rfl

@[simp] theorem alSet_cons {α : Type} (k' k : String) (v' v : α) (l : List (String × α)) :
    alSet ((k', v') :: l) k v = if k' = k then (k, v) :: l else (k', v') :: alSet l k v := rfl

@[simp] theorem alDel_nil {α : Type} (k : String) : alDel ([] : List (String × α)) k = [] := rfl

@[simp] theorem alDel_cons {α : Type} (k' k : String) (v' : α) (l : List (String × α)) :
    alDel ((k', v') :: l) k = if k' = k then l else (k', v') :: alDel l k := rfl

theorem alGet_alSet_self {α : Type} (l : List (String × α)) (k : String) (v : α) :
    alGet (alSet l k v) k = some v := by
  induction l with
  | nil => simp
  | cons p l ih =>
    obtain ⟨k', v'⟩ := p
    by_cases h : k' = k <;> simp [h, ih]

theorem alGet_alSet_ne {α : Type} (l : List (String × α)) (k k' : String) (v : α)
    (h : k ≠ k') : alGet (alSet l k v) k' = alGet l k' := by
  induction l with
  | nil => simp [h]
  | cons p l ih =>
    obtain ⟨k₀, v₀⟩ := p
    by_cases h₀ : k₀ = k
    · subst h₀; simp [h]
    · simp [h₀, ih]

theorem alGet_alDel_ne {α : Type} (l : List (String × α)) (k k' : String)
    (h : k ≠ k') : alGet (alDel l k) k' = alGet l k' := by
  induction l with
  | nil => simp
  | cons p l ih =>
    obtain ⟨k₀, v₀⟩ := p
    by_cases h₀ : k₀ = k
    · subst h₀; simp [h]
    · simp [h₀, ih]

theorem alDel_of_alGet_none {α : Type} (l : List (String × α)) (k : String)
    (h : alGet l k = none) : alDel l k = l := by
  induction l with
  | nil => simp
  | cons p l ih =>
    obtain ⟨k₀, v₀⟩ := p
    by_cases h₀ : k₀ = k
    · simp [h₀] at h
    · simp [h₀] at h ⊢; exact ih h

theorem alGet_append_of_none {α : Type} (l l' : List (String × α)) (k : String)
    (h : alGet l k = none) : alGet (l ++ l') k = alGet l' k := by
  induction l with
  | nil => simp
  | cons p l ih =>
    obtain ⟨k₀, v₀⟩ := p
    by_cases h₀ : k₀ = k
    · simp [h₀] at h
    · simp [h₀] at h ⊢; exact ih h

theorem alDel_append_of_none {α : Type} (l l' : List (String × α)) (k : String)
    (h : alGet l k = none) : alDel (l ++ l') k = l ++ alDel l' k := by
  induction l with
  | nil => simp
  | cons p l ih =>
    obtain ⟨k₀, v₀⟩ := p
    by_cases h₀ : k₀ = k
    · simp [h₀] at h
    · simp [h₀] at h ⊢; exact ih h

/-- A stored entry, `(value, stored_at, ttl)`: the tuple stored by
`DictCache.set` / the JSON triple stored by `FileCache.set`. -/
structure DEntry where
  value : String
  storedAt : ℚ
  ttl : Option ℚ
  deriving DecidableEq, Repr

/-- Backend-local machine state: the stored mapping plus the ambient clock
and the tick counter modelling successive `time.time()` calls. -/
structure PyState (κ : Type) where
  store : κ
  clock : ℕ → ℚ
  tick : ℕ

/-- State of `DictCache`: the Python dict from key to entry tuple. -/
abbrev DS := PyState (List (String × DEntry))

/-- `DictCache.get`: returns the stored value, or `none` when the key is
absent or the entry has expired (`time.time() - stored_at > ttl`), removing
an expired entry lazily.  `time.time()` is consulted only when the entry
exists and has a ttl, mirroring the short-circuit in the source. -/
def dict_get (key : String) (s : DS) : Option String × DS :=
  let key := transcode key
  match alGet s.store key with
  | none => (none, s)
  | some e =>
    match e.ttl with
    | none => (some e.value, s)
    | some t =>
      let now := s.clock s.tick
      let s1 : DS := { s with tick := s.tick + 1 }
      if now - e.storedAt > t then
        (none, { s1 with store := alDel s1.store key })
      else
        (some e.value, s1)

/-- `DictCache.set`: raises `ParameterError` when both conditional flags are
given; otherwise routes the presence check through `self.get` (which may
lazily remove an expired entry), and writes the new entry tuple
`(value, time.time(), expire_seconds)` only when the conditional flags
allow it.  Returns whether the value was written. -/
def dict_set (key value : String) (expire_seconds : Option ℚ)
    (only_if_new only_if_old : Bool) (s : DS) : Res DS Bool :=
  let key := transcode key
  let value := transcode value
  if only_if_new && only_if_old then (.error .parameterError, s)
  else
    let r := dict_get key s
    let key_in_cache := r.1.isSome
    let set_flag := true
    let set_flag := if only_if_new && key_in_cache then false else set_flag
    let set_flag := if only_if_old && !key_in_cache then false else set_flag
    if set_flag then
      (.ok true, { r.2 with
        store := alSet r.2.store key ⟨value, r.2.clock r.2.tick, expire_seconds⟩,
        tick := r.2.tick + 1 })
    else (.ok false, r.2)

/-- Python `str.isdigit` restricted to ASCII: nonempty and all characters
decimal digits. -/
def pyIsDigit (v : String) : Bool := v ≠ "" && v.data.all Char.isDigit

/-- Decimal value of a digit list (the numeric reading `int` performs on a
digit string). -/
def digitsToNat (l : List Char) : ℕ := l.foldl (fun n c => 10 * n + (c.toNat - 48)) 0

/-- Python `int(s)` on a digit string. -/
def strToNat (s : String) : ℕ := digitsToNat s.data

/-- `Cache.increase` instantiated on `DictCache` (the inherited default,
layered on `self.get` / `self.set`): absent key stores `str(amount)`;
a digit-string value stores `str(int(value) + amount)`; any other present
value raises a `ValueError` (re-raised by `engine_error_wrapper` as a
subclass that is still a `ValueError`).  The write uses no ttl and no
conditional flags. -/
def dict_increase (key : String) (amount : Int) (s : DS) : Res DS String :=
  let key := transcode key
  let r := dict_get key s
  let increased? : Except PyErr String :=
    match r.1 with
    | none => .ok (toString amount)
    | some v =>
      if pyIsDigit v then .ok (toString ((strToNat v : Int) + amount))
      else .error .valueError
  match increased? with
  | .error e => (.error e, r.2)
  | .ok increased =>
    rbind (dict_set key increased none false false r.2) fun _ s2 => (.ok increased, s2)

/-- One step of glob matching used by `fnmatch.fnmatch` (POSIX case):
`*` matches any run, `?` one character, `[...]`/`[!...]` a character class
with ranges; anything else matches literally. -/
def globClass (negate : Bool) (cls : List Char) (c : Char) : Bool :=
  let inCls :=
    match cls with
    | [] => false
    | _ =>
      let rec go : List Char → Bool
        | a :: '-' :: b :: rest => (a ≤ c && c ≤ b) || go rest
        | a :: rest => a = c || go rest
        | [] => false
      go cls
  if negate then !inCls else inCls

/-- Splits a character-class body at its closing bracket:
returns (class body, remainder of pattern). -/
def splitClass : List Char → Option (List Char × List Char)
  | [] => none
  | ']' :: rest => some ([], rest)
  | c :: rest =>
    match splitClass rest with
    | none => none
    | some (cls, rem) => some (c :: cls, rem)

/-- Glob matching of a name against a pattern, as `fnmatch.fnmatch` on a
POSIX system (no case folding).  An unterminated `[` matches itself
literally, as in `fnmatch.translate`. -/
def globMatch : List Char → List Char → Bool
  | [], s => s.isEmpty
  | '*' :: p, s =>
    globMatch p s ||
      (match s with
       | [] => false
       | _ :: s' => globMatch ('*' :: p) s')
  | '?' :: p, s =>
    (match s with
     | [] => false
     | _ :: s' => globMatch p s')
  | '[' :: p, s =>
    (match p with
     | '!' :: p' =>
       match splitClass p' with
       | some (cls, rem) =>
         (match s with
          | [] => false
          | c :: s' => globClass true cls c && globMatch rem s')
       | none =>
         (match s with
          | [] => false
          | c :: s' => c = '[' && globMatch p s')
     | _ =>
       match splitClass p with
       | some (cls, rem) =>
         (match s with
          | [] => false
          | c :: s' => globClass false cls c && globMatch rem s')
       | none =>
         (match s with
          | [] => false
          | c :: s' => c = '[' && globMatch p s'))
  | c :: p, s =>
    (match s with
     | [] => false
     | c' :: s' => c = c' && globMatch p s')
  termination_by p s => (s.length, p.length)

/-- `fnmatch.fnmatch(name, pattern)` on POSIX. -/
def fnmatch (name pattern : String) : Bool := globMatch pattern.data name.data

/-- `DictCache.get_keys`: every stored key matching the glob pattern, in
dict order. -/
def dict_get_keys (pattern : String) (s : DS) : List String :=
  (s.store.map (fun p => p.1)).filter (fun key => fnmatch key (transcode pattern))

/-- `DictCache.delete`: removes each listed key that is present, counting
the removals. -/
def dict_delete (keys : List String) (s : DS) : ℕ × DS :=
  keys.foldl
    (fun r key =>
      let key := transcode key
      if (alGet r.2.store key).isSome then
        (r.1 + 1, { r.2 with store := alDel r.2.store key })
      else r)
    (0, s)

/-- `Cache.clear` instantiated on `DictCache`:
`delete(get_keys(pattern))`. -/
def dict_clear (pattern : String) (s : DS) : ℕ × DS :=
  dict_delete (dict_get_keys pattern s) s

/-- A JSON document of `FileCache`: the per-file mapping from original key
to entry triple. -/
abbrev Doc := List (String × DEntry)

/-- State of `FileCache`: the mapping from file path (the key hash) to the
JSON document stored in that file, plus the clock. -/
abbrev FS := PyState (List (String × Doc))

/-- `FileCache._read`: the parsed document of a file, `{}` when the file
does not exist. -/
def file_read (s : FS) (fp : String) : Doc := (alGet s.store fp).getD []

/-- `FileCache._write`: rewrites the whole document at `fp`; a `none` value
deletes the binding of `key` (returning false when it was absent), any
other value stores the entry under `key`. -/
def file_write (key : String) (value : Option DEntry) (fp : String) (s : FS) :
    Bool × FS :=
  let jd := file_read s fp
  match value with
  | none =>
    if (alGet jd key).isSome then
      (true, { s with store := alSet s.store fp (alDel jd key) })
    else (false, s)
  | some v => (true, { s with store := alSet s.store fp (alSet jd key v) })

/-- `FileCache.get`: reads the document at the hash of the key, re-checks
the original key inside it, and applies the same lazy-expiry rule as
`DictCache.get` (removal through `_write` on expiry).  The hash used for
file sharding is an external parameter (md5 in the source). -/
def file_get (hash : String → String) (key : String) (s : FS) :
    Option String × FS :=
  let key := transcode key
  let fp := hash key
  let jd := file_read s fp
  match alGet jd key with
  | none => (none, s)
  | some e =>
    match e.ttl with
    | none => (some (transcode e.value), s)
    | some t =>
      let now := s.clock s.tick
      let s1 : FS := { s with tick := s.tick + 1 }
      if now - e.storedAt > t then
        (none, (file_write key none fp s1).2)
      else
        (some (transcode e.value), s1)

/-- `FileCache.set`: same conditional-write protocol as `DictCache.set`,
with the write going through `_write` into the document at the key hash. -/
def file_set (hash : String → String) (key value : String)
    (expire_seconds : Option ℚ) (only_if_new only_if_old : Bool) (s : FS) :
    Res FS Bool :=
  let key := transcode key
  let fp := hash key
  let value := transcode value
  if only_if_new && only_if_old then (.error .parameterError, s)
  else
    let r := file_get hash key s
    let key_in_cache := r.1.isSome
    let set_flag := true
    let set_flag := if only_if_new && key_in_cache then false else set_flag
    let set_flag := if only_if_old && !key_in_cache then false else set_flag
    if set_flag then
      let now := r.2.clock r.2.tick
      let s2 : FS := { r.2 with tick := r.2.tick + 1 }
      (.ok true, (file_write key (some ⟨value, now, expire_seconds⟩) fp s2).2)
    else (.ok false, r.2)

/-- The storage contract of `cache.py`, as consumed by `CacheWrapper` and
`AutoCache`: the operations those layers invoke on their wrapped cache. -/
structure Backend (σ : Type) where
  get : String → σ → Res σ (Option String)
  set : String → String → Option ℚ → Bool → Bool → σ → Res σ Bool
  increase : String → Int → σ → Res σ String
  clear : String → σ → Res σ ℕ

/-- `DictCache` packaged as a storage backend. -/
def dictBackend : Backend DS where
  get := fun key s => let r := dict_get key s; (.ok r.1, r.2)
  set := dict_set
  increase := dict_increase
  clear := fun pattern s => let r := dict_clear pattern s; (.ok r.1, r.2)

/-- Lifts a backend to a state extended with an observation component that
the backend itself never touches (used to log invocations of a wrapped
function). -/
def liftFst {σ γ : Type} (B : Backend σ) : Backend (σ × γ) where
  get := fun key s => let r := B.get key s.1; (r.1, (r.2, s.2))
  set := fun key v e n o s => let r := B.set key v e n o s.1; (r.1, (r.2, s.2))
  increase := fun key a s => let r := B.increase key a s.1; (r.1, (r.2, s.2))
  clear := fun p s => let r := B.clear p s.1; (r.1, (r.2, s.2))

/-- `CacheWrapper.global_ns`. -/
def global_ns : String := "py_auto_cache"

/-- `CacheWrapper.sep`. -/
def sep : String := ":"

/-- Python string interpolation of an optional region component:
`None` formats as the literal string `"None"`. -/
def pyStr : Option String → String
  | none => "None"
  | some s => s

/-- `CacheWrapper._get_full_prefix`: the format string
`global_ns sep ns sep prefix sep`, with the region component interpolated
through `str`. -/
def full_prefix_str (ns : String) (p : Option String) : String :=
  global_ns ++ sep ++ ns ++ sep ++ pyStr p ++ sep

/-- `CacheWrapper._get_full_suffix`: the format string `sep suffix`, with
the suffix interpolated through `str` — so an absent suffix contributes
the literal text `:None`. -/
def full_suffix_str (sfx : Option String) : String := sep ++ pyStr sfx

/-- `CacheWrapper._add_namespace_to_key`: full prefix, then the logical
key, then the full suffix. -/
def add_namespace_to_key (ns key : String) (p sfx : Option String) : String :=
  full_prefix_str ns p ++ key ++ full_suffix_str sfx

/-- `CacheWrapper._add_cache_namespace_to_key`: cache region, no suffix
argument (so the interpolated suffix text is `:None`). -/
def add_cache_namespace (ns key : String) : String :=
  add_namespace_to_key ns key (some "cache") none

/-- `CacheWrapper._add_monitoring_namespace_to_key`. -/
def add_monitoring_namespace (ns sfx key : String) : String :=
  add_namespace_to_key ns key (some "monitoring") (some sfx)

/-- `CacheWrapper._misses_key`: the wildcard-aggregated miss counter key. -/
def misses_key (ns : String) : String := add_monitoring_namespace ns "misses" "*"

/-- `CacheWrapper._hits_key`: the wildcard-aggregated hit counter key. -/
def hits_key (ns : String) : String := add_monitoring_namespace ns "hits" "*"

/-- The monitoring key carrying the cost sample of a cache key
(`AutoCache.time_cost_suffix`). -/
def time_cost_key (ns key : String) : String :=
  add_monitoring_namespace ns "time_cost" key

/-- `CacheWrapper.__init__` restricted to its namespace validation:
`assert namespace != 'default'`.  Any other namespace string, the empty
string included, is accepted; on success the instance holds the namespace
and the optional default expiry. -/
def cache_wrapper_init (ns : String) (default_expiry : Option ℚ) :
    Except PyErr (String × Option ℚ) :=
  if ns = "default" then .error .assertionError
  else .ok (ns, default_expiry)

/-- `CacheWrapper.get`: namespaces the key, reads the backend, and bumps
the miss counter on absence or the hit counter on presence before
returning the value. -/
def cw_get {σ : Type} (B : Backend σ) (ns key : String) (s : σ) :
    Res σ (Option String) :=
  rbind (B.get (add_cache_namespace ns key) s) fun value s1 =>
    match value with
    | none => rbind (B.increase (misses_key ns) 1 s1) fun _ s2 => (.ok none, s2)
    | some v => rbind (B.increase (hits_key ns) 1 s1) fun _ s2 => (.ok (some v), s2)

/-- `CacheWrapper.set`: namespaces the key and substitutes the default
expiry when the call supplies none. -/
def cw_set {σ : Type} (B : Backend σ) (ns : String) (dflt : Option ℚ)
    (key value : String) (expire_seconds : Option ℚ)
    (only_if_new only_if_old : Bool) (s : σ) : Res σ Bool :=
  B.set (add_cache_namespace ns key) value
    (match expire_seconds with | none => dflt | some e => some e)
    only_if_new only_if_old s

/-- Python `int(s)` on the strings this system stores: an optional minus
sign followed by decimal digits; anything else fails. -/
def pyInt? (v : String) : Option Int :=
  match v.data with
  | '-' :: rest =>
    if rest ≠ [] && rest.all Char.isDigit then some (-(digitsToNat rest : Int)) else none
  | l => if l ≠ [] && l.all Char.isDigit then some ((digitsToNat l : Int)) else none

/-- `int(value or 0)` as used by `CacheWrapper.hits` / `misses`: `None` and
the empty string count as 0, a non-numeric string raises `ValueError`. -/
def py_int_or0 (value : Option String) : Except PyErr Int :=
  match value with
  | none => .ok 0
  | some v =>
    if v = "" then .ok 0
    else
      match pyInt? v with
      | some n => .ok n
      | none => .error .valueError

/-- `CacheWrapper.hits`: a direct backend read of the hit counter key. -/
def cw_hits {σ : Type} (B : Backend σ) (ns : String) (s : σ) : Res σ Int :=
  rbind (B.get (hits_key ns) s) fun v s1 => (py_int_or0 v, s1)

/-- `CacheWrapper.misses`: a direct backend read of the miss counter key. -/
def cw_misses {σ : Type} (B : Backend σ) (ns : String) (s : σ) : Res σ Int :=
  rbind (B.get (misses_key ns) s) fun v s1 => (py_int_or0 v, s1)

/-- `CacheWrapper.hit_rate`: `hits / (hits + misses)`, and 0 when both
counters are 0. -/
def cw_hit_rate {σ : Type} (B : Backend σ) (ns : String) (s : σ) : Res σ ℚ :=
  rbind (cw_hits B ns s) fun hits s1 =>
  rbind (cw_misses B ns s1) fun misses s2 =>
    let count := hits + misses
    if count = 0 then (.ok 0, s2)
    else (.ok ((hits : ℚ) / ((hits : ℚ) + (misses : ℚ))), s2)

/-- `CacheWrapper.clear`: clears the cache region only — the pattern sent
to the backend is the namespaced cache-region wildcard. -/
def cw_clear {σ : Type} (B : Backend σ) (ns : String) (s : σ) : Res σ ℕ :=
  B.clear (add_cache_namespace ns "*") s

theorem str_data_append (a b : String) : (a ++ b).data = a.data ++ b.data := rfl

theorem str_ext {a b : String} (h : a.data = b.data) : a = b := by
  cases a; cases b; exact congrArg String.mk h

theorem str_append_assoc (a b c : String) : a ++ b ++ c = a ++ (b ++ c) := by
  apply str_ext
  simp [str_data_append]

theorem str_append_cancel {p a b : String} (h : p ++ a = p ++ b) : a = b := by
  apply str_ext
  have h2 := congrArg String.data h
  rw [str_data_append, str_data_append] at h2
  exact List.append_cancel_left h2

theorem pq_ne {p a b : String} (h : a ≠ b) : p ++ a ≠ p ++ b :=
  fun he => h (str_append_cancel he)

theorem ne_append_of_ne_head {a b x y : String} {c d : Char} {ta tb : List Char}
    (ha : a.data = c :: ta) (hb : b.data = d :: tb) (h : c ≠ d) : a ++ x ≠ b ++ y := by
  intro he
  have h2 : a.data ++ x.data = b.data ++ y.data := by
    have h3 := congrArg String.data he
    rw [str_data_append, str_data_append] at h3
    exact h3
  rw [ha, hb] at h2
  simp only [List.cons_append, List.cons.injEq] at h2
  exact h h2.1

theorem ne_of_len {a b : String} (h : a.data.length ≠ b.data.length) : a ≠ b :=
  fun he => h (by rw [he])

/-- The cache-region physical key in fully right-associated form. -/
theorem cache_key_eq (ns k : String) :
    add_cache_namespace ns k =
      "py_auto_cache" ++ (":" ++ (ns ++ (":" ++ ("cache" ++ (":" ++ (k ++ (":" ++ "None"))))))) := by
  simp only [add_cache_namespace, add_namespace_to_key, full_prefix_str, full_suffix_str,
    global_ns, sep, pyStr, str_append_assoc]

/-- A monitoring-region physical key in fully right-associated form. -/
theorem monitoring_key_eq (ns sfx k : String) :
    add_monitoring_namespace ns sfx k =
      "py_auto_cache" ++ (":" ++ (ns ++ (":" ++ ("monitoring" ++ (":" ++ (k ++ (":" ++ sfx))))))) := by
  simp only [add_monitoring_namespace, add_namespace_to_key, full_prefix_str, full_suffix_str,
    global_ns, sep, pyStr, str_append_assoc]

/-- A cache-region key never collides with a monitoring-region key of the
same namespace. -/
theorem cache_key_ne_monitoring (ns k sfx k' : String) :
    add_cache_namespace ns k ≠ add_monitoring_namespace ns sfx k' := by
  rw [cache_key_eq, monitoring_key_eq]
  apply pq_ne; apply pq_ne; apply pq_ne; apply pq_ne
  exact ne_append_of_ne_head rfl rfl (by decide)

/-- The cost-sample key of any cache key never collides with the miss
counter key. -/
theorem time_cost_key_ne_misses (ns k : String) :
    time_cost_key ns k ≠ misses_key ns := by
  rw [time_cost_key, misses_key, monitoring_key_eq, monitoring_key_eq]
  apply pq_ne; apply pq_ne; apply pq_ne; apply pq_ne; apply pq_ne; apply pq_ne
  apply ne_of_len
  simp only [str_data_append, List.length_append]
  have h0 : (":" : String).data.length = 1 := rfl
  have h1 : ("time_cost" : String).data.length = 9 := rfl
  have h2 : ("*" : String).data.length = 1 := rfl
  have h3 : ("misses" : String).data.length = 6 := rfl
  rw [h0, h1, h2, h3]
  omega

/-- The cost-sample key of any cache key never collides with the hit
counter key. -/
theorem time_cost_key_ne_hits (ns k : String) :
    time_cost_key ns k ≠ hits_key ns := by
  rw [time_cost_key, hits_key, monitoring_key_eq, monitoring_key_eq]
  apply pq_ne; apply pq_ne; apply pq_ne; apply pq_ne; apply pq_ne; apply pq_ne
  apply ne_of_len
  simp only [str_data_append, List.length_append]
  have h0 : (":" : String).data.length = 1 := rfl
  have h1 : ("time_cost" : String).data.length = 9 := rfl
  have h2 : ("*" : String).data.length = 1 := rfl
  have h3 : ("hits" : String).data.length = 4 := rfl
  rw [h0, h1, h2, h3]
  omega

/-- The hit and miss counter keys are distinct. -/
theorem hits_key_ne_misses (ns : String) : hits_key ns ≠ misses_key ns := by
  rw [hits_key, misses_key, monitoring_key_eq, monitoring_key_eq]
  apply pq_ne; apply pq_ne; apply pq_ne; apply pq_ne
  decide

/-- Two cache-region keys with logical keys that differ in their first
character are distinct. -/
theorem cache_key_ne_of_head {k k' : String} {c d : Char} {ta tb : List Char}
    (hk : k.data = c :: ta) (hk' : k'.data = d :: tb) (h : c ≠ d) (ns : String) :
    add_cache_namespace ns k ≠ add_cache_namespace ns k' := by
  rw [cache_key_eq, cache_key_eq]
  apply pq_ne; apply pq_ne; apply pq_ne; apply pq_ne; apply pq_ne; apply pq_ne
  exact ne_append_of_ne_head hk hk' h

/-- Python `str` of a float duration, used when the cost sample is stored
through `transcode`. -/
def floatStr (q : ℚ) : String := toString q

/-- The serialization codec (`pickle` in the source), an external
collaborator: `dumpsArgs` models `pickle.dumps([args, kwargs])`, `dumps`
and `loads` the value codec.  `loads` is partial: a string that is not a
valid pickle fails. -/
structure Pickle (A V β : Type) where
  dumpsArgs : A → List (String × V) → String
  dumps : β → String
  loads : String → Option β

/-- Outcome of invoking the original Python function: a normal return, a
raised `DoNotCacheException` carrying its payload, or any other raised
exception. -/
inductive FuncResult (β : Type) where
  | normal (v : β)
  | doNotCache (v : β)
  | raises (e : PyErr)

/-- A Python function as seen by the decorator: defining module name,
function name, and a body that can read and update ambient state (Python
functions are arbitrary effectful code; the tests use functions mutating
global counters). -/
structure PyFunc (A V β σ : Type) where
  module : String
  name : String
  impl : A → List (String × V) → σ → FuncResult β × σ

/-- `AutoCache._get_cache_key`: module name, function name and the pickled
arguments, joined by the separator. -/
def get_cache_key {A V β σ : Type} (P : Pickle A V β) (f : PyFunc A V β σ)
    (args : A) (kwargs : List (String × V)) : String :=
  f.module ++ sep ++ f.name ++ sep ++ P.dumpsArgs args kwargs

/-- `AutoCache.set`: first writes the cost sample under the monitoring
time-cost key (same expiry argument and conditional flags, result
discarded), then performs the inherited `CacheWrapper.set` of the value. -/
def ac_set {σ : Type} (B : Backend σ) (ns : String) (dflt : Option ℚ)
    (key value : String) (expire_seconds : Option ℚ)
    (only_if_new only_if_old : Bool) (time_cost : String) (s : σ) : Res σ Bool :=
  rbind (B.set (time_cost_key ns key) time_cost expire_seconds
      only_if_new only_if_old s) fun _ s1 =>
    cw_set B ns dflt key value expire_seconds only_if_new only_if_old s1

/-- `AutoCache._read_cache`: namespaced read through `CacheWrapper.get`
(which updates the hit/miss counters); raises the internal `CacheMiss`
signal on absence, otherwise unpickles the stored string. -/
def read_cache {A V β σ : Type} (B : Backend σ) (P : Pickle A V β) (ns : String)
    (f : PyFunc A V β σ) (args : A) (kwargs : List (String × V)) (s : σ) : Res σ β :=
  rbind (cw_get B ns (get_cache_key P f args kwargs) s) fun value s1 =>
    match value with
    | none => (.error .cacheMiss, s1)
    | some vs =>
      match P.loads vs with
      | some v => (.ok v, s1)
      | none => (.error .unpickleError, s1)

/-- `AutoCache._update_cache`: invokes the original function between two
`time.time()` readings (passed here as the parameters `t_start`, `t_end`),
then stores the pickled result with the default expiry and the elapsed
time as cost sample.  A raised `DoNotCacheException` short-circuits to
returning its payload with nothing stored; the backend write is inside
the same `try` block, but a backend can only raise client-error kinds,
never the do-not-cache signal, so only function-raised signals are
caught. -/
def update_cache {A V β σ : Type} (B : Backend σ) (P : Pickle A V β) (ns : String)
    (dflt : Option ℚ) (f : PyFunc A V β σ) (args : A) (kwargs : List (String × V))
    (t_start t_end : ℚ) (s : σ) : Res σ β :=
  match f.impl args kwargs s with
  | (.doNotCache v, s1) => (.ok v, s1)
  | (.raises e, s1) => (.error e, s1)
  | (.normal v, s1) =>
    rbind (ac_set B ns dflt (get_cache_key P f args kwargs) (P.dumps v) dflt
        false false (floatStr (t_end - t_start)) s1) fun _ s2 => (.ok v, s2)

/-- `kwargs.pop(k, False)`: the looked-up value (if any) and the dict with
the binding removed. -/
def pyPop {V : Type} (kwargs : List (String × V)) (k : String) :
    Option V × List (String × V) :=
  (alGet kwargs k, alDel kwargs k)

/-- The wrapper produced by `AutoCache.decorator`: pops the reserved
`update_auto_cache` keyword argument (so it is consumed and never
forwarded), treats a truthy popped value as a forced cache miss, otherwise
tries `_read_cache` and falls back to `_update_cache` exactly on the
internal `CacheMiss` signal.  `truthy` is Python truthiness on the
keyword-argument value type. -/
def wrapper_call {A V β σ : Type} (B : Backend σ) (P : Pickle A V β)
    (truthy : V → Bool) (ns : String) (dflt : Option ℚ) (f : PyFunc A V β σ)
    (args : A) (kwargs : List (String × V)) (t_start t_end : ℚ) (s : σ) : Res σ β :=
  let popped := pyPop kwargs "update_auto_cache"
  let kwargs := popped.2
  let flag := match popped.1 with | none => false | some v => truthy v
  if flag then update_cache B P ns dflt f args kwargs t_start t_end s
  else
    match read_cache B P ns f args kwargs s with
    | (.error .cacheMiss, s1) => update_cache B P ns dflt f args kwargs t_start t_end s1
    | (.error e, s1) => (.error e, s1)
    | (.ok v, s1) => (.ok v, s1)

/-- A remote-store backend whose write path fails: `get` reports absence,
`set` raises a backend-native error translated to the `ClientError`
hierarchy, `increase` succeeds.  Used to probe how a failed cache write
propagates through the memoization layer. -/
def failWriteBackend : Backend Unit where
  get := fun _ s => (.ok none, s)
  set := fun _ _ _ _ _ s => (.error .clientError, s)
  increase := fun _ _ s => (.ok "1", s)
  clear := fun _ s => (.ok 0, s)

/-- A probe backend that records every physical key a wrapper operation
sends to the storage contract, in order. -/
def probeBackend : Backend (List String) where
  get := fun key s => (.ok none, s ++ [key])
  set := fun key _ _ _ _ s => (.ok true, s ++ [key])
  increase := fun key _ s => (.ok "1", s ++ [key])
  clear := fun p s => (.ok 0, s ++ [p])

/-- C2, counterexample: the claim asserts the cache-region physical key is
exactly `global_namespace:instance_namespace:cache:logical_key` with no
suffix after the logical key; with namespace `unittest` and logical key
`k` the code produces `py_auto_cache:unittest:cache:k:None` instead — the
absent suffix is interpolated as the literal text `None`. -/
theorem C2_counterexample :
    add_cache_namespace "unittest" "k" ≠ "py_auto_cache:unittest:cache:k" ∧
    add_cache_namespace "unittest" "k" = "py_auto_cache:unittest:cache:k:None" := by
  constructor
  · decide
  · rfl

/-- C2, amended: for every namespace and logical key, the physical key
used for a cache-region operation is
`global_namespace:instance_namespace:cache:logical_key:None` — the format
is `global:instance:region:logical_key:suffix` with the absent cache-region
suffix rendered as the literal string `None`.  This is indeed the key the
wrapper sends to the backend: `CacheWrapper.set` sends exactly it, and
`CacheWrapper.get` sends it first, followed only by the monitoring
miss-counter key. -/
theorem C2_main (ns key value : String) (dflt expire : Option ℚ)
    (only_if_new only_if_old : Bool) (log : List String) :
    add_cache_namespace ns key =
      "py_auto_cache" ++ ":" ++ ns ++ ":" ++ "cache" ++ ":" ++ key ++ ":" ++ "None" ∧
    (cw_set probeBackend ns dflt key value expire only_if_new only_if_old log).2 =
      log ++ [add_cache_namespace ns key] ∧
    (cw_get probeBackend ns key log).2 =
      log ++ [add_cache_namespace ns key, misses_key ns] := by
  refine ⟨?_, ?_, ?_⟩
  · apply str_ext
    simp only [add_cache_namespace, add_namespace_to_key, full_prefix_str, full_suffix_str,
      global_ns, sep, pyStr, str_data_append, List.append_assoc]
  · simp [cw_set, probeBackend]
  · simp [cw_get, probeBackend, rbind]

/-- C5, counterexample: the claim asserts that constructing the wrapper
with the empty namespace is rejected; in the code the only namespace the
`assert` rejects is the literal default value `default` — construction
with the empty string succeeds. -/
theorem C5_counterexample : cache_wrapper_init "" none = Except.ok ("", none) := rfl

/-- C5, amended: construction fails exactly for the default namespace
value `default`; every other namespace string — the empty string
included — is accepted together with the optional default expiry. -/
theorem C5_main (ns : String) (d : Option ℚ) :
    (ns = "default" → cache_wrapper_init ns d = .error .assertionError) ∧
    (ns ≠ "default" → cache_wrapper_init ns d = .ok (ns, d)) := by
  constructor
  · intro h; simp [cache_wrapper_init, h]
  · intro h; simp [cache_wrapper_init, h]

/-- C5, witness: the default namespace is rejected and the empty namespace
is accepted, at concrete inputs. -/
theorem C5_witness :
    cache_wrapper_init "default" none = .error .assertionError ∧
    cache_wrapper_init "x" (some 60) = .ok ("x", some 60) :=
  ⟨(C5_main "default" none).1 rfl, (C5_main "x" (some 60)).2 (by decide)⟩

/-- Concrete pickle codec on natural-number results, for probing the
memoization layer at concrete inputs. -/
def natPickle : Pickle Unit Unit ℕ where
  dumpsArgs := fun _ _ => "a"
  dumps := fun n => toString n
  loads := String.toNat?

/-- A wrapped function returning 42 normally, with no state effect. -/
def const42 : PyFunc Unit Unit ℕ Unit where
  module := "m"
  name := "f"
  impl := fun _ _ s => (.normal 42, s)

/-- C1, counterexample: the claim asserts that when the function returns
normally and the subsequent cache write raises a backend-level client
error, the wrapped call still returns the computed value.  Against a
backend whose write raises a client error, the memoized call raises that
client error instead of returning the computed 42: only
`DoNotCacheException` is caught around the write. -/
theorem C1_counterexample :
    (wrapper_call failWriteBackend natPickle (fun _ => true) "ns" none const42
        () [] 0 0 ()).1 = Except.error PyErr.clientError ∧
    (Except.error PyErr.clientError : Except PyErr ℕ) ≠ Except.ok 42 :=
  ⟨rfl, fun h => Except.noConfusion h⟩

/-- C1, amended: after a cache miss, when the underlying function returns
normally and the cache write (`AutoCache.set`) raises any backend error,
that error propagates out of the wrapped call and the computed value is
not returned — a backend-level failure is raised to the caller on a
failed write just as on a failed read; nothing is swallowed. -/
theorem C1_main {σ A V β : Type} (B : Backend σ) (P : Pickle A V β)
    (truthy : V → Bool) (ns : String) (dflt : Option ℚ) (f : PyFunc A V β σ)
    (args : A) (kwargs : List (String × V)) (t1 t2 : ℚ) (s s1 simp1 s2 : σ)
    (v : β) (e : PyErr)
    (hflag : alGet kwargs "update_auto_cache" = none)
    (hread : read_cache B P ns f args kwargs s = (.error .cacheMiss, s1))
    (himpl : f.impl args kwargs s1 = (.normal v, simp1))
    (hset : ac_set B ns dflt (get_cache_key P f args kwargs) (P.dumps v) dflt
        false false (floatStr (t2 - t1)) simp1 = (.error e, s2)) :
    wrapper_call B P truthy ns dflt f args kwargs t1 t2 s = (.error e, s2) := by
  unfold wrapper_call update_cache
  simp only [pyPop, hflag, alDel_of_alGet_none kwargs "update_auto_cache" hflag,
    Bool.false_eq_true, if_false, hread, himpl, hset, rbind]

/-- C1, witness: the amended propagation behavior at a concrete failing
backend — the hypotheses hold and the client error reaches the caller. -/
theorem C1_witness :
    read_cache failWriteBackend natPickle "ns" const42 () [] () =
      (.error .cacheMiss, ()) ∧
    const42.impl () [] () = (.normal 42, ()) ∧
    ac_set failWriteBackend "ns" none (get_cache_key natPickle const42 () [])
      (natPickle.dumps 42) none false false (floatStr (0 - 0)) () =
      (.error .clientError, ()) ∧
    wrapper_call failWriteBackend natPickle (fun _ => true) "ns" none const42
      () [] 0 0 () = (.error .clientError, ()) :=
  ⟨rfl, rfl, rfl,
    C1_main failWriteBackend natPickle (fun _ => true) "ns" none const42
      () [] 0 0 () () () () 42 .clientError rfl rfl rfl rfl⟩

theorem dict_get_absent {s : DS} {key : String}
    (h : alGet s.store key = none) : dict_get key s = (none, s) := by
  simp [dict_get, transcode, h]

theorem dict_get_nottl {s : DS} {key : String} {e : DEntry}
    (h : alGet s.store key = some e) (ht : e.ttl = none) :
    dict_get key s = (some e.value, s) := by
  simp [dict_get, transcode, h, ht]

theorem dict_get_live {s : DS} {key : String} {e : DEntry} {t : ℚ}
    (h : alGet s.store key = some e) (ht : e.ttl = some t)
    (hl : ¬(s.clock s.tick - e.storedAt > t)) :
    dict_get key s = (some e.value, { s with tick := s.tick + 1 }) := by
  simp [dict_get, transcode, h, ht, hl]

theorem dict_get_expired {s : DS} {key : String} {e : DEntry} {t : ℚ}
    (h : alGet s.store key = some e) (ht : e.ttl = some t)
    (hx : s.clock s.tick - e.storedAt > t) :
    dict_get key s = (none, { s with store := alDel s.store key, tick := s.tick + 1 }) := by
  simp [dict_get, transcode, h, ht, hx]

theorem dict_get_store_of_some {s : DS} {key : String} {v : String}
    (h : (dict_get key s).1 = some v) : (dict_get key s).2.store = s.store := by
  rcases hg : alGet s.store key with _ | e
  · rw [dict_get_absent hg] at h; simp at h
  · rcases ht : e.ttl with _ | t
    · rw [dict_get_nottl hg ht]
    · by_cases hx : s.clock s.tick - e.storedAt > t
      · rw [dict_get_expired hg ht hx] at h; simp at h
      · rw [dict_get_live hg ht hx]

theorem dict_set_write_of_absent {s : DS} {key : String} (v : String)
    (exp : Option ℚ) (h : alGet s.store key = none) :
    dict_set key v exp false false s =
      (.ok true, { s with
        store := alSet s.store key ⟨v, s.clock s.tick, exp⟩,
        tick := s.tick + 1 }) := by
  simp [dict_set, transcode, dict_get_absent h]

theorem dict_set_write_of_nottl {s : DS} {key : String} {e : DEntry} (v : String)
    (exp : Option ℚ) (h : alGet s.store key = some e) (ht : e.ttl = none) :
    dict_set key v exp false false s =
      (.ok true, { s with
        store := alSet s.store key ⟨v, s.clock s.tick, exp⟩,
        tick := s.tick + 1 }) := by
  simp [dict_set, transcode, dict_get_nottl h ht]

theorem dict_increase_absent {s : DS} {key : String} (n : Int)
    (h : alGet s.store key = none) :
    dict_increase key n s =
      (.ok (toString n), { s with
        store := alSet s.store key ⟨toString n, s.clock s.tick, none⟩,
        tick := s.tick + 1 }) := by
  simp [dict_increase, transcode, dict_get_absent h, dict_set_write_of_absent _ _ h, rbind]

theorem dict_increase_digit {s : DS} {key : String} {e : DEntry} (n : Int)
    (h : alGet s.store key = some e) (ht : e.ttl = none) (hd : pyIsDigit e.value = true) :
    dict_increase key n s =
      (.ok (toString ((strToNat e.value : Int) + n)),
        { s with
          store := alSet s.store key
            ⟨toString ((strToNat e.value : Int) + n), s.clock s.tick, none⟩,
          tick := s.tick + 1 }) := by
  simp [dict_increase, transcode, dict_get_nottl h ht, hd,
    dict_set_write_of_nottl _ _ h ht, rbind]

theorem file_get_absent {s : FS} {key : String} (hash : String → String)
    (h : alGet (file_read s (hash key)) key = none) :
    file_get hash key s = (none, s) := by
  simp [file_get, transcode, h]

theorem file_get_nottl {s : FS} {key : String} {e : DEntry} (hash : String → String)
    (h : alGet (file_read s (hash key)) key = some e) (ht : e.ttl = none) :
    file_get hash key s = (some e.value, s) := by
  simp [file_get, transcode, h, ht]

theorem file_get_live {s : FS} {key : String} {e : DEntry} {t : ℚ} (hash : String → String)
    (h : alGet (file_read s (hash key)) key = some e) (ht : e.ttl = some t)
    (hl : ¬(s.clock s.tick - e.storedAt > t)) :
    file_get hash key s = (some e.value, { s with tick := s.tick + 1 }) := by
  simp [file_get, transcode, h, ht, hl]

theorem file_get_expired {s : FS} {key : String} {e : DEntry} {t : ℚ} (hash : String → String)
    (h : alGet (file_read s (hash key)) key = some e) (ht : e.ttl = some t)
    (hx : s.clock s.tick - e.storedAt > t) :
    file_get hash key s =
      (none, { s with
        store := alSet s.store (hash key) (alDel (file_read s (hash key)) key),
        tick := s.tick + 1 }) := by
  have h2 : alGet ((alGet s.store (hash key)).getD []) key = some e := by
    simpa [file_read] using h
  simp [file_get, transcode, file_read, file_write, h2, ht, hx]

theorem file_get_store_of_some {s : FS} {key : String} {v : String}
    (hash : String → String)
    (h : (file_get hash key s).1 = some v) : (file_get hash key s).2.store = s.store := by
  rcases hg : alGet (file_read s (hash key)) key with _ | e
  · rw [file_get_absent hash hg] at h; simp at h
  · rcases ht : e.ttl with _ | t
    · rw [file_get_nottl hash hg ht]
    · by_cases hx : s.clock s.tick - e.storedAt > t
      · rw [file_get_expired hash hg ht hx] at h; simp at h
      · rw [file_get_live hash hg ht hx]

theorem file_set_write_of_absent {s : FS} {key : String} (hash : String → String)
    (v : String) (exp : Option ℚ)
    (h : alGet (file_read s (hash key)) key = none) :
    file_set hash key v exp false false s =
      (.ok true, { s with
        store := alSet s.store (hash key)
          (alSet (file_read s (hash key)) key ⟨v, s.clock s.tick, exp⟩),
        tick := s.tick + 1 }) := by
  simp [file_set, transcode, file_get_absent hash h, file_write, file_read]

theorem fin_true {α : Type} {W s' X : α} {b : Bool}
    (h : ((Except.ok true : Except PyErr Bool), W) = (.ok b, s')) :
    (b = true → s' = W) ∧ (b = false → s' = X) := by
  simp only [Prod.mk.injEq, Except.ok.injEq] at h
  obtain ⟨hb, hw⟩ := h
  subst hb
  exact ⟨fun _ => hw.symm, by simp⟩

theorem fin_false {α : Type} {W s' X : α} {b : Bool}
    (h : ((Except.ok false : Except PyErr Bool), W) = (.ok b, s')) :
    (b = true → s' = X) ∧ (b = false → s' = W) := by
  simp only [Prod.mk.injEq, Except.ok.injEq] at h
  obtain ⟨hb, hw⟩ := h
  subst hb
  exact ⟨by simp, fun _ => hw.symm⟩

/-- C6: for the in-memory and filesystem backends, a conditional `set` with
`only_if_new` on a key that currently resolves to a present value performs
no write (the state is exactly the post-presence-check state, with the
store untouched) and returns false; a conditional `set` with `only_if_old`
on a key resolving to absent likewise performs no write and returns false;
and in general a `set` that returns normally returns true exactly when the
new entry was written (true: the state is the post-check state extended
with the new entry; false: the state is exactly the post-check state). -/
theorem C6_main :
    (∀ (s : DS) (key v : String) (exp : Option ℚ) (v₀ : String),
      (dict_get key s).1 = some v₀ →
        dict_set key v exp true false s = (.ok false, (dict_get key s).2) ∧
        ((dict_get key s).2).store = s.store) ∧
    (∀ (s : DS) (key v : String) (exp : Option ℚ),
      (dict_get key s).1 = none →
        dict_set key v exp false true s = (.ok false, (dict_get key s).2)) ∧
    (∀ (s : DS) (key v : String) (exp : Option ℚ) (onew oold b : Bool) (s' : DS),
      dict_set key v exp onew oold s = (.ok b, s') →
        (b = true → s' = { (dict_get key s).2 with
          store := alSet ((dict_get key s).2).store key
            ⟨v, ((dict_get key s).2).clock ((dict_get key s).2).tick, exp⟩,
          tick := ((dict_get key s).2).tick + 1 }) ∧
        (b = false → s' = (dict_get key s).2)) ∧
    (∀ (hash : String → String) (s : FS) (key v : String) (exp : Option ℚ) (v₀ : String),
      (file_get hash key s).1 = some v₀ →
        file_set hash key v exp true false s = (.ok false, (file_get hash key s).2) ∧
        ((file_get hash key s).2).store = s.store) ∧
    (∀ (hash : String → String) (s : FS) (key v : String) (exp : Option ℚ),
      (file_get hash key s).1 = none →
        file_set hash key v exp false true s = (.ok false, (file_get hash key s).2)) ∧
    (∀ (hash : String → String) (s : FS) (key v : String) (exp : Option ℚ)
        (onew oold b : Bool) (s' : FS),
      file_set hash key v exp onew oold s = (.ok b, s') →
        (b = true → s' = { (file_get hash key s).2 with
          store := alSet ((file_get hash key s).2).store (hash key)
            (alSet (file_read (file_get hash key s).2 (hash key)) key
              ⟨v, ((file_get hash key s).2).clock ((file_get hash key s).2).tick, exp⟩),
          tick := ((file_get hash key s).2).tick + 1 }) ∧
        (b = false → s' = (file_get hash key s).2)) := by
  refine ⟨?_, ?_, ?_, ?_, ?_, ?_⟩
  · intro s key v exp v₀ h
    have hsome : ((dict_get key s).1).isSome = true := by rw [h]; rfl
    refine ⟨?_, dict_get_store_of_some h⟩
    simp [dict_set, transcode, hsome]
  · intro s key v exp h
    have hnone : ((dict_get key s).1).isSome = false := by rw [h]; rfl
    simp [dict_set, transcode, hnone]
  · intro s key v exp onew oold b s' hset
    unfold dict_set at hset
    simp only [transcode] at hset
    cases onew <;> cases oold
    · simp only [Bool.and_self, Bool.false_eq_true, if_false, Bool.false_and, Bool.not_false,
        Bool.and_false] at hset
      exact fin_true hset
    · by_cases hs1 : ((dict_get key s).1).isSome = true
      · simp only [Bool.false_and, Bool.true_and, Bool.false_eq_true, if_false, hs1,
          Bool.not_true, Bool.and_false, if_true] at hset
        exact fin_true hset
      · simp only [Bool.not_eq_true] at hs1
        simp only [Bool.false_and, Bool.true_and, Bool.false_eq_true, if_false, hs1,
          Bool.not_false, Bool.and_true, if_true] at hset
        exact fin_false hset
    · by_cases hs1 : ((dict_get key s).1).isSome = true
      · simp only [Bool.and_false, Bool.true_and, Bool.false_eq_true, if_false, hs1, if_true,
          Bool.false_and] at hset
        exact fin_false hset
      · simp only [Bool.not_eq_true] at hs1
        simp only [Bool.and_false, Bool.true_and, Bool.false_eq_true, if_false, hs1,
          Bool.false_and] at hset
        exact fin_true hset
    · simp only [Bool.and_self, if_true] at hset
      simp at hset
  · intro hash s key v exp v₀ h
    have hsome : ((file_get hash key s).1).isSome = true := by rw [h]; rfl
    refine ⟨?_, file_get_store_of_some hash h⟩
    simp [file_set, transcode, hsome]
  · intro hash s key v exp h
    have hnone : ((file_get hash key s).1).isSome = false := by rw [h]; rfl
    simp [file_set, transcode, hnone]
  · intro hash s key v exp onew oold b s' hset
    unfold file_set at hset
    simp only [transcode] at hset
    cases onew <;> cases oold
    · simp only [Bool.and_self, Bool.false_eq_true, if_false, Bool.false_and, Bool.not_false,
        Bool.and_false] at hset
      exact fin_true hset
    · by_cases hs1 : ((file_get hash key s).1).isSome = true
      · simp only [Bool.false_and, Bool.true_and, Bool.false_eq_true, if_false, hs1,
          Bool.not_true, Bool.and_false, if_true] at hset
        exact fin_true hset
      · simp only [Bool.not_eq_true] at hs1
        simp only [Bool.false_and, Bool.true_and, Bool.false_eq_true, if_false, hs1,
          Bool.not_false, Bool.and_true, if_true] at hset
        exact fin_false hset
    · by_cases hs1 : ((file_get hash key s).1).isSome = true
      · simp only [Bool.and_false, Bool.true_and, Bool.false_eq_true, if_false, hs1, if_true,
          Bool.false_and] at hset
        exact fin_false hset
      · simp only [Bool.not_eq_true] at hs1
        simp only [Bool.and_false, Bool.true_and, Bool.false_eq_true, if_false, hs1,
          Bool.false_and] at hset
        exact fin_true hset
    · simp only [Bool.and_self, if_true] at hset
      simp at hset

/-- A concrete in-memory state holding one live entry under key `k`. -/
def wS : DS := ⟨[("k", ⟨"old", 0, none⟩)], fun _ => 0, 0⟩

/-- A concrete filesystem state: one file `h` holding one live entry under
key `k`. -/
def wF : FS := ⟨[("h", [("k", ⟨"old", 0, none⟩)])], fun _ => 0, 0⟩

/-- C6, witness: the conditional-write semantics at concrete states for
both backends. -/
theorem C6_witness :
    (dict_set "k" "new" none true false wS = (.ok false, (dict_get "k" wS).2) ∧
      ((dict_get "k" wS).2).store = wS.store) ∧
    dict_set "a" "v" none false true wS = (.ok false, (dict_get "a" wS).2) ∧
    (⟨[("k", ⟨"old", 0, none⟩), ("a", ⟨"v", 0, none⟩)], wS.clock, 1⟩ : DS) =
      { (dict_get "a" wS).2 with
        store := alSet ((dict_get "a" wS).2).store "a"
          ⟨"v", ((dict_get "a" wS).2).clock ((dict_get "a" wS).2).tick, none⟩,
        tick := ((dict_get "a" wS).2).tick + 1 } ∧
    (file_set (fun _ => "h") "k" "new" none true false wF =
        (.ok false, (file_get (fun _ => "h") "k" wF).2) ∧
      ((file_get (fun _ => "h") "k" wF).2).store = wF.store) ∧
    file_set (fun _ => "h") "a" "v" none false true wF =
      (.ok false, (file_get (fun _ => "h") "a" wF).2) ∧
    (⟨[("h", [("k", ⟨"old", 0, none⟩), ("a", ⟨"v", 0, none⟩)])], wF.clock, 1⟩ : FS) =
      { (file_get (fun _ => "h") "a" wF).2 with
        store := alSet ((file_get (fun _ => "h") "a" wF).2).store ((fun _ => "h") "a")
          (alSet (file_read (file_get (fun _ => "h") "a" wF).2 ((fun _ => "h") "a")) "a"
            ⟨"v", ((file_get (fun _ => "h") "a" wF).2).clock
              ((file_get (fun _ => "h") "a" wF).2).tick, none⟩),
        tick := ((file_get (fun _ => "h") "a" wF).2).tick + 1 } :=
  ⟨C6_main.1 wS "k" "new" none "old" rfl,
   C6_main.2.1 wS "a" "v" none rfl,
   (C6_main.2.2.1 wS "a" "v" none false false true _ rfl).1 rfl,
   C6_main.2.2.2.1 (fun _ => "h") wF "k" "new" none "old" rfl,
   C6_main.2.2.2.2.1 (fun _ => "h") wF "a" "v" none rfl,
   (C6_main.2.2.2.2.2 (fun _ => "h") wF "a" "v" none false false true _ rfl).1 rfl⟩

/-- C7: for both concrete backends, storing a fresh key with ttl `t` writes
the entry stamped with the current clock; a later `get` whose clock reading
`now` satisfies `now - stored_at > t` returns absent and removes the entry
at read time, while a `get` with `now - stored_at ≤ t` returns the stored
value; an entry stored with no ttl is returned unchanged by `get` with no
clock consulted, hence never expires. -/
theorem C7_main :
    (∀ (s : DS) (key v : String) (t : ℚ), alGet s.store key = none →
      dict_set key v (some t) false false s =
        (.ok true, { s with
          store := alSet s.store key ⟨v, s.clock s.tick, some t⟩,
          tick := s.tick + 1 }) ∧
      (s.clock (s.tick + 1) - s.clock s.tick > t →
        dict_get key { s with
            store := alSet s.store key ⟨v, s.clock s.tick, some t⟩,
            tick := s.tick + 1 } =
          (none, { s with
            store := alDel (alSet s.store key ⟨v, s.clock s.tick, some t⟩) key,
            tick := s.tick + 2 })) ∧
      (¬(s.clock (s.tick + 1) - s.clock s.tick > t) →
        dict_get key { s with
            store := alSet s.store key ⟨v, s.clock s.tick, some t⟩,
            tick := s.tick + 1 } =
          (some v, { s with
            store := alSet s.store key ⟨v, s.clock s.tick, some t⟩,
            tick := s.tick + 2 }))) ∧
    (∀ (s : DS) (key v : String), alGet s.store key = none →
      dict_set key v none false false s =
        (.ok true, { s with
          store := alSet s.store key ⟨v, s.clock s.tick, none⟩,
          tick := s.tick + 1 }) ∧
      dict_get key { s with
          store := alSet s.store key ⟨v, s.clock s.tick, none⟩,
          tick := s.tick + 1 } =
        (some v, { s with
          store := alSet s.store key ⟨v, s.clock s.tick, none⟩,
          tick := s.tick + 1 })) ∧
    (∀ (hash : String → String) (s : FS) (key v : String) (t : ℚ),
      alGet (file_read s (hash key)) key = none →
      file_set hash key v (some t) false false s =
        (.ok true, { s with
          store := alSet s.store (hash key)
            (alSet (file_read s (hash key)) key ⟨v, s.clock s.tick, some t⟩),
          tick := s.tick + 1 }) ∧
      (s.clock (s.tick + 1) - s.clock s.tick > t →
        file_get hash key { s with
            store := alSet s.store (hash key)
              (alSet (file_read s (hash key)) key ⟨v, s.clock s.tick, some t⟩),
            tick := s.tick + 1 } =
          (none, { s with
            store := alSet
              (alSet s.store (hash key)
                (alSet (file_read s (hash key)) key ⟨v, s.clock s.tick, some t⟩))
              (hash key)
              (alDel (alSet (file_read s (hash key)) key ⟨v, s.clock s.tick, some t⟩) key),
            tick := s.tick + 2 })) ∧
      (¬(s.clock (s.tick + 1) - s.clock s.tick > t) →
        file_get hash key { s with
            store := alSet s.store (hash key)
              (alSet (file_read s (hash key)) key ⟨v, s.clock s.tick, some t⟩),
            tick := s.tick + 1 } =
          (some v, { s with
            store := alSet s.store (hash key)
              (alSet (file_read s (hash key)) key ⟨v, s.clock s.tick, some t⟩),
            tick := s.tick + 2 }))) ∧
    (∀ (hash : String → String) (s : FS) (key v : String),
      alGet (file_read s (hash key)) key = none →
      file_set hash key v none false false s =
        (.ok true, { s with
          store := alSet s.store (hash key)
            (alSet (file_read s (hash key)) key ⟨v, s.clock s.tick, none⟩),
          tick := s.tick + 1 }) ∧
      file_get hash key { s with
          store := alSet s.store (hash key)
            (alSet (file_read s (hash key)) key ⟨v, s.clock s.tick, none⟩),
          tick := s.tick + 1 } =
        (some v, { s with
          store := alSet s.store (hash key)
            (alSet (file_read s (hash key)) key ⟨v, s.clock s.tick, none⟩),
          tick := s.tick + 1 })) := by
  refine ⟨?_, ?_, ?_, ?_⟩
  · intro s key v t h
    refine ⟨dict_set_write_of_absent v (some t) h, fun hx => ?_, fun hl => ?_⟩
    · have hself : alGet ({ s with
          store := alSet s.store key ⟨v, s.clock s.tick, some t⟩,
          tick := s.tick + 1 } : DS).store key = some ⟨v, s.clock s.tick, some t⟩ :=
        alGet_alSet_self _ _ _
      exact dict_get_expired hself rfl hx
    · have hself : alGet ({ s with
          store := alSet s.store key ⟨v, s.clock s.tick, some t⟩,
          tick := s.tick + 1 } : DS).store key = some ⟨v, s.clock s.tick, some t⟩ :=
        alGet_alSet_self _ _ _
      exact dict_get_live hself rfl hl
  · intro s key v h
    refine ⟨dict_set_write_of_absent v none h, ?_⟩
    have hself : alGet ({ s with
        store := alSet s.store key ⟨v, s.clock s.tick, none⟩,
        tick := s.tick + 1 } : DS).store key = some ⟨v, s.clock s.tick, none⟩ :=
      alGet_alSet_self _ _ _
    exact dict_get_nottl hself rfl
  · intro hash s key v t h
    refine ⟨file_set_write_of_absent hash v (some t) h, fun hx => ?_, fun hl => ?_⟩
    · have hrd : alGet (file_read { s with
          store := alSet s.store (hash key)
            (alSet (file_read s (hash key)) key ⟨v, s.clock s.tick, some t⟩),
          tick := s.tick + 1 } (hash key)) key = some ⟨v, s.clock s.tick, some t⟩ := by
        simp [file_read, alGet_alSet_self]
      have := file_get_expired hash hrd rfl hx
      rw [this]
      simp [file_read, alGet_alSet_self]
    · have hrd : alGet (file_read { s with
          store := alSet s.store (hash key)
            (alSet (file_read s (hash key)) key ⟨v, s.clock s.tick, some t⟩),
          tick := s.tick + 1 } (hash key)) key = some ⟨v, s.clock s.tick, some t⟩ := by
        simp [file_read, alGet_alSet_self]
      exact file_get_live hash hrd rfl hl
  · intro hash s key v h
    refine ⟨file_set_write_of_absent hash v none h, ?_⟩
    have hrd : alGet (file_read { s with
        store := alSet s.store (hash key)
          (alSet (file_read s (hash key)) key ⟨v, s.clock s.tick, none⟩),
        tick := s.tick + 1 } (hash key)) key = some ⟨v, s.clock s.tick, none⟩ := by
      simp [file_read, alGet_alSet_self]
    exact file_get_nottl hash hrd rfl

/-- An empty in-memory state with a constant clock. -/
def w7 : DS := ⟨[], fun _ => 0, 0⟩

/-- An empty filesystem state with a constant clock. -/
def wF7 : FS := ⟨[], fun _ => 0, 0⟩

/-- C7, witness: expiry behavior at concrete states — a ttl the elapsed
time exceeds expires and removes the entry, a ttl it does not exceed
returns the value, and a ttl-free entry is returned with no clock read. -/
theorem C7_witness :
    alGet w7.store "k" = none ∧
    dict_get "k" { w7 with
        store := alSet w7.store "k" ⟨"v", w7.clock w7.tick, some (-1)⟩,
        tick := w7.tick + 1 } =
      (none, { w7 with
        store := alDel (alSet w7.store "k" ⟨"v", w7.clock w7.tick, some (-1)⟩) "k",
        tick := w7.tick + 2 }) ∧
    dict_get "k" { w7 with
        store := alSet w7.store "k" ⟨"v", w7.clock w7.tick, some 0⟩,
        tick := w7.tick + 1 } =
      (some "v", { w7 with
        store := alSet w7.store "k" ⟨"v", w7.clock w7.tick, some 0⟩,
        tick := w7.tick + 2 }) ∧
    dict_get "k" { w7 with
        store := alSet w7.store "k" ⟨"v", w7.clock w7.tick, none⟩,
        tick := w7.tick + 1 } =
      (some "v", { w7 with
        store := alSet w7.store "k" ⟨"v", w7.clock w7.tick, none⟩,
        tick := w7.tick + 1 }) ∧
    file_get (fun _ => "h") "k" { wF7 with
        store := alSet wF7.store "h"
          (alSet (file_read wF7 "h") "k" ⟨"v", wF7.clock wF7.tick, some (-1)⟩),
        tick := wF7.tick + 1 } =
      (none, { wF7 with
        store := alSet
          (alSet wF7.store "h"
            (alSet (file_read wF7 "h") "k" ⟨"v", wF7.clock wF7.tick, some (-1)⟩))
          "h"
          (alDel (alSet (file_read wF7 "h") "k" ⟨"v", wF7.clock wF7.tick, some (-1)⟩) "k"),
        tick := wF7.tick + 2 }) ∧
    file_get (fun _ => "h") "k" { wF7 with
        store := alSet wF7.store "h"
          (alSet (file_read wF7 "h") "k" ⟨"v", wF7.clock wF7.tick, none⟩),
        tick := wF7.tick + 1 } =
      (some "v", { wF7 with
        store := alSet wF7.store "h"
          (alSet (file_read wF7 "h") "k" ⟨"v", wF7.clock wF7.tick, none⟩),
        tick := wF7.tick + 1 }) :=
  ⟨rfl,
   (C7_main.1 w7 "k" "v" (-1) rfl).2.1
     (by show (0 : ℚ) - 0 > -1; rw [sub_self]; exact neg_one_lt_zero),
   (C7_main.1 w7 "k" "v" 0 rfl).2.2
     (by show ¬((0 : ℚ) - 0 > 0); rw [sub_self]; exact lt_irrefl 0),
   (C7_main.2.1 w7 "k" "v" rfl).2,
   (C7_main.2.2.1 (fun _ => "h") wF7 "k" "v" (-1) rfl).2.1
     (by show (0 : ℚ) - 0 > -1; rw [sub_self]; exact neg_one_lt_zero),
   (C7_main.2.2.2 (fun _ => "h") wF7 "k" "v" rfl).2⟩

/-- C10: for both concrete backends, a conditional `set` with
`only_if_new` on a key whose stored entry has already expired treats the
key as absent — the presence check routed through `get` removes the
expired entry, the write is performed with the fresh timestamp, and `set`
returns true. -/
theorem C10_main :
    (∀ (s : DS) (key v : String) (exp : Option ℚ) (e : DEntry) (t : ℚ),
      alGet s.store key = some e → e.ttl = some t →
      s.clock s.tick - e.storedAt > t →
      dict_set key v exp true false s =
        (.ok true, { s with
          store := alSet (alDel s.store key) key ⟨v, s.clock (s.tick + 1), exp⟩,
          tick := s.tick + 2 })) ∧
    (∀ (hash : String → String) (s : FS) (key v : String) (exp : Option ℚ)
        (e : DEntry) (t : ℚ),
      alGet (file_read s (hash key)) key = some e → e.ttl = some t →
      s.clock s.tick - e.storedAt > t →
      file_set hash key v exp true false s =
        (.ok true, { s with
          store := alSet
            (alSet s.store (hash key) (alDel (file_read s (hash key)) key))
            (hash key)
            (alSet (alDel (file_read s (hash key)) key) key
              ⟨v, s.clock (s.tick + 1), exp⟩),
          tick := s.tick + 2 })) := by
  constructor
  · intro s key v exp e t h ht hx
    simp [dict_set, transcode, dict_get_expired h ht hx]
  · intro hash s key v exp e t h ht hx
    simp [file_set, transcode, file_get_expired hash h ht hx, file_write, file_read,
      alGet_alSet_self]

/-- An in-memory state holding one expired entry under key `k`. -/
def wX : DS := ⟨[("k", ⟨"old", 0, some 0⟩)], fun _ => 1, 0⟩

/-- A filesystem state holding one expired entry under key `k` in file `h`. -/
def wFX : FS := ⟨[("h", [("k", ⟨"old", 0, some 0⟩)])], fun _ => 1, 0⟩

/-- C10, witness: the expired-entry conditional write at concrete states. -/
theorem C10_witness :
    alGet wX.store "k" = some ⟨"old", 0, some 0⟩ ∧
    wX.clock wX.tick - (0 : ℚ) > 0 ∧
    dict_set "k" "v" none true false wX =
      (.ok true, { wX with
        store := alSet (alDel wX.store "k") "k" ⟨"v", wX.clock (wX.tick + 1), none⟩,
        tick := wX.tick + 2 }) ∧
    file_set (fun _ => "h") "k" "v" none true false wFX =
      (.ok true, { wFX with
        store := alSet
          (alSet wFX.store "h" (alDel (file_read wFX "h") "k"))
          "h"
          (alSet (alDel (file_read wFX "h") "k") "k"
            ⟨"v", wFX.clock (wFX.tick + 1), none⟩),
        tick := wFX.tick + 2 }) :=
  ⟨rfl, by show (1 : ℚ) - 0 > 0; rw [sub_zero]; exact zero_lt_one,
   C10_main.1 wX "k" "v" none ⟨"old", 0, some 0⟩ 0 rfl rfl
     (by show (1 : ℚ) - 0 > 0; rw [sub_zero]; exact zero_lt_one),
   C10_main.2 (fun _ => "h") wFX "k" "v" none ⟨"old", 0, some 0⟩ 0 rfl rfl
     (by show (1 : ℚ) - 0 > 0; rw [sub_zero]; exact zero_lt_one)⟩

theorem dict_set_write_always (key v : String) (exp : Option ℚ) (s : DS) :
    dict_set key v exp false false s =
      (.ok true, { (dict_get key s).2 with
        store := alSet ((dict_get key s).2).store key
          ⟨v, ((dict_get key s).2).clock ((dict_get key s).2).tick, exp⟩,
        tick := ((dict_get key s).2).tick + 1 }) := by
  simp [dict_set, transcode]

/-- C8: `increase` layered on get/set (here on the in-memory backend),
with the pre-state described exactly as the code observes it, through
`get` — so an entry that has lazily expired counts as absent and a live
entry with a ttl counts as present.  On a key resolving to absent with
amount `n` it returns the decimal string of `n` and stores it under the
key (ttl-free, stamped with the clock reading of the write); on a key
resolving to a digit-string value it returns and stores the string of the
sum; on a key resolving to a present non-numeric value it raises a value
error and leaves the store untouched.  The post-state is phrased through
the two `get`s the code performs: the read in `increase` itself and the
presence check inside `set`. -/
theorem C8_main :
    (∀ (s : DS) (key : String) (n : Int), (dict_get key s).1 = none →
      dict_increase key n s =
        (.ok (toString n),
          { (dict_get key (dict_get key s).2).2 with
            store := alSet ((dict_get key (dict_get key s).2).2).store key
              ⟨toString n,
                ((dict_get key (dict_get key s).2).2).clock
                  ((dict_get key (dict_get key s).2).2).tick, none⟩,
            tick := ((dict_get key (dict_get key s).2).2).tick + 1 }) ∧
      alGet ((dict_increase key n s).2).store key =
        some ⟨toString n,
          ((dict_get key (dict_get key s).2).2).clock
            ((dict_get key (dict_get key s).2).2).tick, none⟩) ∧
    (∀ (s : DS) (key : String) (n : Int) (v : String),
      (dict_get key s).1 = some v → pyIsDigit v = true →
      dict_increase key n s =
        (.ok (toString ((strToNat v : Int) + n)),
          { (dict_get key (dict_get key s).2).2 with
            store := alSet ((dict_get key (dict_get key s).2).2).store key
              ⟨toString ((strToNat v : Int) + n),
                ((dict_get key (dict_get key s).2).2).clock
                  ((dict_get key (dict_get key s).2).2).tick, none⟩,
            tick := ((dict_get key (dict_get key s).2).2).tick + 1 }) ∧
      alGet ((dict_increase key n s).2).store key =
        some ⟨toString ((strToNat v : Int) + n),
          ((dict_get key (dict_get key s).2).2).clock
            ((dict_get key (dict_get key s).2).2).tick, none⟩) ∧
    (∀ (s : DS) (key : String) (n : Int) (v : String),
      (dict_get key s).1 = some v → pyIsDigit v = false →
      dict_increase key n s = (.error .valueError, (dict_get key s).2) ∧
      ((dict_get key s).2).store = s.store) := by
  refine ⟨?_, ?_, ?_⟩
  · intro s key n hget
    have hmain : dict_increase key n s =
        (.ok (toString n),
          { (dict_get key (dict_get key s).2).2 with
            store := alSet ((dict_get key (dict_get key s).2).2).store key
              ⟨toString n,
                ((dict_get key (dict_get key s).2).2).clock
                  ((dict_get key (dict_get key s).2).2).tick, none⟩,
            tick := ((dict_get key (dict_get key s).2).2).tick + 1 }) := by
      unfold dict_increase
      simp only [transcode]
      rw [hget]
      show rbind (dict_set key (toString n) none false false (dict_get key s).2)
        (fun _ s2 => (Except.ok (toString n), s2)) = _
      rw [dict_set_write_always]
      rfl
    refine ⟨hmain, ?_⟩
    rw [hmain]
    exact alGet_alSet_self _ _ _
  · intro s key n v hget hd
    have hmain : dict_increase key n s =
        (.ok (toString ((strToNat v : Int) + n)),
          { (dict_get key (dict_get key s).2).2 with
            store := alSet ((dict_get key (dict_get key s).2).2).store key
              ⟨toString ((strToNat v : Int) + n),
                ((dict_get key (dict_get key s).2).2).clock
                  ((dict_get key (dict_get key s).2).2).tick, none⟩,
            tick := ((dict_get key (dict_get key s).2).2).tick + 1 }) := by
      unfold dict_increase
      simp only [transcode]
      rw [hget]
      simp only [hd]
      show rbind (dict_set key (toString ((strToNat v : Int) + n)) none false false
          (dict_get key s).2)
        (fun _ s2 => (Except.ok (toString ((strToNat v : Int) + n)), s2)) = _
      rw [dict_set_write_always]
      rfl
    refine ⟨hmain, ?_⟩
    rw [hmain]
    exact alGet_alSet_self _ _ _
  · intro s key n v hget hd
    refine ⟨?_, dict_get_store_of_some hget⟩
    unfold dict_increase
    simp only [transcode]
    rw [hget]
    simp [hd]

/-- An in-memory state holding a digit-string value under key `k`. -/
def wD : DS := ⟨[("k", ⟨"17", 0, none⟩)], fun _ => 0, 0⟩

/-- An in-memory state holding a non-numeric value under key `k`. -/
def wN : DS := ⟨[("k", ⟨"abc", 0, none⟩)], fun _ => 0, 0⟩

/-- An in-memory state holding a digit-string value under key `k` with a
ttl the elapsed time has not exceeded. -/
def wL : DS := ⟨[("k", ⟨"17", 0, some 0⟩)], fun _ => 0, 0⟩

/-- C8, witness: increase at concrete states — an absent key with amount 5
yields the string 5; a lazily expired entry also counts as absent and is
replaced by the string 5; a stored 17 with amount 5 yields 22, also when
the 17 carries a live ttl; a stored non-numeric value raises the value
error and the store is untouched. -/
theorem C8_witness :
    (dict_get "k" w7).1 = none ∧
    (dict_increase "k" 5 w7 =
        (.ok "5",
          { (dict_get "k" (dict_get "k" w7).2).2 with
            store := alSet ((dict_get "k" (dict_get "k" w7).2).2).store "k"
              ⟨"5", ((dict_get "k" (dict_get "k" w7).2).2).clock
                ((dict_get "k" (dict_get "k" w7).2).2).tick, none⟩,
            tick := ((dict_get "k" (dict_get "k" w7).2).2).tick + 1 }) ∧
      alGet ((dict_increase "k" 5 w7).2).store "k" =
        some ⟨"5", ((dict_get "k" (dict_get "k" w7).2).2).clock
          ((dict_get "k" (dict_get "k" w7).2).2).tick, none⟩) ∧
    (dict_increase "k" 5 wX =
        (.ok "5",
          { (dict_get "k" (dict_get "k" wX).2).2 with
            store := alSet ((dict_get "k" (dict_get "k" wX).2).2).store "k"
              ⟨"5", ((dict_get "k" (dict_get "k" wX).2).2).clock
                ((dict_get "k" (dict_get "k" wX).2).2).tick, none⟩,
            tick := ((dict_get "k" (dict_get "k" wX).2).2).tick + 1 }) ∧
      alGet ((dict_increase "k" 5 wX).2).store "k" =
        some ⟨"5", ((dict_get "k" (dict_get "k" wX).2).2).clock
          ((dict_get "k" (dict_get "k" wX).2).2).tick, none⟩) ∧
    toString ((strToNat "17" : Int) + 5) = "22" ∧
    (dict_increase "k" 5 wD =
        (.ok "22",
          { (dict_get "k" (dict_get "k" wD).2).2 with
            store := alSet ((dict_get "k" (dict_get "k" wD).2).2).store "k"
              ⟨"22", ((dict_get "k" (dict_get "k" wD).2).2).clock
                ((dict_get "k" (dict_get "k" wD).2).2).tick, none⟩,
            tick := ((dict_get "k" (dict_get "k" wD).2).2).tick + 1 }) ∧
      alGet ((dict_increase "k" 5 wD).2).store "k" =
        some ⟨"22", ((dict_get "k" (dict_get "k" wD).2).2).clock
          ((dict_get "k" (dict_get "k" wD).2).2).tick, none⟩) ∧
    (dict_increase "k" 5 wL =
        (.ok "22",
          { (dict_get "k" (dict_get "k" wL).2).2 with
            store := alSet ((dict_get "k" (dict_get "k" wL).2).2).store "k"
              ⟨"22", ((dict_get "k" (dict_get "k" wL).2).2).clock
                ((dict_get "k" (dict_get "k" wL).2).2).tick, none⟩,
            tick := ((dict_get "k" (dict_get "k" wL).2).2).tick + 1 }) ∧
      alGet ((dict_increase "k" 5 wL).2).store "k" =
        some ⟨"22", ((dict_get "k" (dict_get "k" wL).2).2).clock
          ((dict_get "k" (dict_get "k" wL).2).2).tick, none⟩) ∧
    dict_increase "k" 5 wN = (.error .valueError, (dict_get "k" wN).2) ∧
    ((dict_get "k" wN).2).store = wN.store :=
  ⟨rfl,
   C8_main.1 w7 "k" 5 rfl,
   C8_main.1 wX "k" 5
     (by rw [dict_get_expired (show alGet wX.store "k" = some ⟨"old", 0, some 0⟩ from rfl)
          rfl (by show (1 : ℚ) - 0 > 0; rw [sub_zero]; exact zero_lt_one)]),
   rfl,
   C8_main.2.1 wD "k" 5 "17" rfl rfl,
   C8_main.2.1 wL "k" 5 "17"
     (by rw [dict_get_live (show alGet wL.store "k" = some ⟨"17", 0, some 0⟩ from rfl)
          rfl (by show ¬((0 : ℚ) - 0 > 0); rw [sub_self]; exact lt_irrefl 0)])
     rfl,
   (C8_main.2.2 wN "k" 5 "abc" rfl rfl).1,
   (C8_main.2.2 wN "k" 5 "abc" rfl rfl).2⟩

theorem cw_get_miss_step {s : DS} {ns : String} (key : String)
    (h1 : alGet s.store (add_cache_namespace ns key) = none)
    (h2 : alGet s.store (misses_key ns) = none) :
    cw_get dictBackend ns key s =
      (.ok none, { s with
        store := alSet s.store (misses_key ns) ⟨"1", s.clock s.tick, none⟩,
        tick := s.tick + 1 }) := by
  simp [cw_get, dictBackend, rbind, dict_get_absent h1, dict_increase_absent 1 h2,
    show toString (1 : Int) = "1" from rfl]

theorem cw_get_miss_step2 {s : DS} {ns : String} {e : DEntry} (key : String)
    (h1 : alGet s.store (add_cache_namespace ns key) = none)
    (h2 : alGet s.store (misses_key ns) = some e) (ht : e.ttl = none)
    (hd : pyIsDigit e.value = true) :
    cw_get dictBackend ns key s =
      (.ok none, { s with
        store := alSet s.store (misses_key ns)
          ⟨toString ((strToNat e.value : Int) + 1), s.clock s.tick, none⟩,
        tick := s.tick + 1 }) := by
  simp [cw_get, dictBackend, rbind, dict_get_absent h1, dict_increase_digit 1 h2 ht hd]

theorem cw_get_hit_step {s : DS} {ns : String} {e : DEntry} (key : String)
    (h1 : alGet s.store (add_cache_namespace ns key) = some e) (ht1 : e.ttl = none)
    (h2 : alGet s.store (hits_key ns) = none) :
    cw_get dictBackend ns key s =
      (.ok (some e.value), { s with
        store := alSet s.store (hits_key ns) ⟨"1", s.clock s.tick, none⟩,
        tick := s.tick + 1 }) := by
  simp [cw_get, dictBackend, rbind, dict_get_nottl h1 ht1, dict_increase_absent 1 h2,
    show toString (1 : Int) = "1" from rfl]

/-- Successive backend states in the 3-miss-1-hit scenario: one wrapper
`set` of logical key `k`, then wrapper `get`s of `a`, `b`, `c` (misses) and
`k` (hit). -/
def c9s (ns : String) (clock : ℕ → ℚ) : ℕ → DS
  | 0 => ⟨[], clock, 0⟩
  | 1 => ⟨[(add_cache_namespace ns "k", ⟨"v", clock 0, none⟩)], clock, 1⟩
  | 2 => ⟨[(add_cache_namespace ns "k", ⟨"v", clock 0, none⟩),
          (misses_key ns, ⟨"1", clock 1, none⟩)], clock, 2⟩
  | 3 => ⟨[(add_cache_namespace ns "k", ⟨"v", clock 0, none⟩),
          (misses_key ns, ⟨"2", clock 2, none⟩)], clock, 3⟩
  | 4 => ⟨[(add_cache_namespace ns "k", ⟨"v", clock 0, none⟩),
          (misses_key ns, ⟨"3", clock 3, none⟩)], clock, 4⟩
  | _ => ⟨[(add_cache_namespace ns "k", ⟨"v", clock 0, none⟩),
          (misses_key ns, ⟨"3", clock 3, none⟩),
          (hits_key ns, ⟨"1", clock 4, none⟩)], clock, 5⟩

/-- C9: `hit_rate` equals `hits / (hits + misses)` and 0 when both counters
are 0; it is 0 on a fresh instance immediately after `clear` and before any
`get`; and after exactly 3 misses and 1 hit it equals 1/4 = 0.25. -/
theorem C9_main :
    (∀ {σ : Type} (B : Backend σ) (ns : String) (s s1 s2 : σ) (h m : Int),
      cw_hits B ns s = (.ok h, s1) → cw_misses B ns s1 = (.ok m, s2) →
      cw_hit_rate B ns s =
        (.ok (if h + m = 0 then 0 else (h : ℚ) / ((h : ℚ) + (m : ℚ))), s2)) ∧
    (∀ (ns : String) (clock : ℕ → ℚ),
      cw_clear dictBackend ns ⟨[], clock, 0⟩ = (.ok 0, ⟨[], clock, 0⟩) ∧
      cw_hit_rate dictBackend ns ⟨[], clock, 0⟩ = (.ok 0, ⟨[], clock, 0⟩)) ∧
    (∀ (ns : String) (clock : ℕ → ℚ),
      cw_set dictBackend ns none "k" "v" none false false (c9s ns clock 0) =
        (.ok true, c9s ns clock 1) ∧
      cw_get dictBackend ns "a" (c9s ns clock 1) = (.ok none, c9s ns clock 2) ∧
      cw_get dictBackend ns "b" (c9s ns clock 2) = (.ok none, c9s ns clock 3) ∧
      cw_get dictBackend ns "c" (c9s ns clock 3) = (.ok none, c9s ns clock 4) ∧
      cw_get dictBackend ns "k" (c9s ns clock 4) = (.ok (some "v"), c9s ns clock 5) ∧
      cw_hits dictBackend ns (c9s ns clock 5) = (.ok 1, c9s ns clock 5) ∧
      cw_misses dictBackend ns (c9s ns clock 5) = (.ok 3, c9s ns clock 5) ∧
      cw_hit_rate dictBackend ns (c9s ns clock 5) = (.ok (1/4 : ℚ), c9s ns clock 5)) := by
  refine ⟨?_, ?_, ?_⟩
  · intro σ B ns s s1 s2 h m hh hm
    simp only [cw_hit_rate, rbind, hh, hm]
    by_cases hc : h + m = 0 <;> simp [hc]
  · intro ns clock
    exact ⟨rfl, rfl⟩
  · intro ns clock
    have nka : add_cache_namespace ns "k" ≠ add_cache_namespace ns "a" :=
      cache_key_ne_of_head rfl rfl (by decide) ns
    have nkb : add_cache_namespace ns "k" ≠ add_cache_namespace ns "b" :=
      cache_key_ne_of_head rfl rfl (by decide) ns
    have nkc : add_cache_namespace ns "k" ≠ add_cache_namespace ns "c" :=
      cache_key_ne_of_head rfl rfl (by decide) ns
    have nkm : add_cache_namespace ns "k" ≠ misses_key ns := by
      rw [misses_key]; exact cache_key_ne_monitoring ns "k" "misses" "*"
    have nkh : add_cache_namespace ns "k" ≠ hits_key ns := by
      rw [hits_key]; exact cache_key_ne_monitoring ns "k" "hits" "*"
    have nma : misses_key ns ≠ add_cache_namespace ns "a" := by
      rw [misses_key]; exact (cache_key_ne_monitoring ns "a" "misses" "*").symm
    have nmb : misses_key ns ≠ add_cache_namespace ns "b" := by
      rw [misses_key]; exact (cache_key_ne_monitoring ns "b" "misses" "*").symm
    have nmc : misses_key ns ≠ add_cache_namespace ns "c" := by
      rw [misses_key]; exact (cache_key_ne_monitoring ns "c" "misses" "*").symm
    have nmk : misses_key ns ≠ add_cache_namespace ns "k" := by
      rw [misses_key]; exact (cache_key_ne_monitoring ns "k" "misses" "*").symm
    have nmh : misses_key ns ≠ hits_key ns := (hits_key_ne_misses ns).symm
    refine ⟨?_, ?_, ?_, ?_, ?_, ?_, ?_, ?_⟩
    · have h0 : alGet (c9s ns clock 0).store (add_cache_namespace ns "k") = none := rfl
      rw [show cw_set dictBackend ns none "k" "v" none false false (c9s ns clock 0) =
        dict_set (add_cache_namespace ns "k") "v" none false false (c9s ns clock 0) from rfl]
      rw [dict_set_write_of_absent "v" none h0]
      simp [c9s]
    · have h1 : alGet (c9s ns clock 1).store (add_cache_namespace ns "a") = none := by
        simp [c9s, nka]
      have h2 : alGet (c9s ns clock 1).store (misses_key ns) = none := by
        simp [c9s, nkm]
      rw [cw_get_miss_step "a" h1 h2]
      simp [c9s, nkm]
    · have h1 : alGet (c9s ns clock 2).store (add_cache_namespace ns "b") = none := by
        simp [c9s, nkb, nmb]
      have h2 : alGet (c9s ns clock 2).store (misses_key ns) = some ⟨"1", clock 1, none⟩ := by
        simp [c9s, nkm]
      rw [cw_get_miss_step2 "b" h1 h2 rfl rfl]
      simp [c9s, nkm, show toString ((strToNat "1" : Int) + 1) = "2" from rfl]
    · have h1 : alGet (c9s ns clock 3).store (add_cache_namespace ns "c") = none := by
        simp [c9s, nkc, nmc]
      have h2 : alGet (c9s ns clock 3).store (misses_key ns) = some ⟨"2", clock 2, none⟩ := by
        simp [c9s, nkm]
      rw [cw_get_miss_step2 "c" h1 h2 rfl rfl]
      simp [c9s, nkm, show toString ((strToNat "2" : Int) + 1) = "3" from rfl]
    · have h1 : alGet (c9s ns clock 4).store (add_cache_namespace ns "k") =
          some ⟨"v", clock 0, none⟩ := by
        simp [c9s]
      have h2 : alGet (c9s ns clock 4).store (hits_key ns) = none := by
        simp [c9s, nkh, nmh]
      rw [cw_get_hit_step "k" h1 rfl h2]
      simp [c9s, nkh, nmh]
    · have h5 : alGet (c9s ns clock 5).store (hits_key ns) = some ⟨"1", clock 4, none⟩ := by
        simp [c9s, nkh, nmh]
      simp [cw_hits, dictBackend, rbind, dict_get_nottl h5 rfl, py_int_or0, pyInt?,
        show digitsToNat ['1'] = 1 from rfl]
    · have h5 : alGet (c9s ns clock 5).store (misses_key ns) = some ⟨"3", clock 3, none⟩ := by
        simp [c9s, nkm, nmh]
      simp [cw_misses, dictBackend, rbind, dict_get_nottl h5 rfl, py_int_or0, pyInt?,
        show digitsToNat ['3'] = 3 from rfl]
    · have h5h : alGet (c9s ns clock 5).store (hits_key ns) = some ⟨"1", clock 4, none⟩ := by
        simp [c9s, nkh, nmh]
      have h5m : alGet (c9s ns clock 5).store (misses_key ns) = some ⟨"3", clock 3, none⟩ := by
        simp [c9s, nkm, nmh]
      simp [cw_hit_rate, cw_hits, cw_misses, dictBackend, rbind,
        dict_get_nottl h5h rfl, dict_get_nottl h5m rfl, py_int_or0, pyInt?,
        show digitsToNat ['1'] = 1 from rfl, show digitsToNat ['3'] = 3 from rfl]
      norm_num

theorem cw_get_miss_stepL {γ : Type} {d : DS} {g : γ} {ns : String} (key : String)
    (h1 : alGet d.store (add_cache_namespace ns key) = none)
    (h2 : alGet d.store (misses_key ns) = none) :
    cw_get (liftFst dictBackend) ns key (d, g) =
      (.ok none, ({ d with
        store := alSet d.store (misses_key ns) ⟨"1", d.clock d.tick, none⟩,
        tick := d.tick + 1 }, g)) := by
  simp [cw_get, liftFst, dictBackend, rbind, dict_get_absent h1, dict_increase_absent 1 h2,
    show toString (1 : Int) = "1" from rfl]

theorem cw_get_miss_step2L {γ : Type} {d : DS} {g : γ} {ns : String} {e : DEntry} (key : String)
    (h1 : alGet d.store (add_cache_namespace ns key) = none)
    (h2 : alGet d.store (misses_key ns) = some e) (ht : e.ttl = none)
    (hd : pyIsDigit e.value = true) :
    cw_get (liftFst dictBackend) ns key (d, g) =
      (.ok none, ({ d with
        store := alSet d.store (misses_key ns)
          ⟨toString ((strToNat e.value : Int) + 1), d.clock d.tick, none⟩,
        tick := d.tick + 1 }, g)) := by
  simp [cw_get, liftFst, dictBackend, rbind, dict_get_absent h1, dict_increase_digit 1 h2 ht hd]

theorem cw_get_hit_stepL {γ : Type} {d : DS} {g : γ} {ns : String} {e : DEntry} (key : String)
    (h1 : alGet d.store (add_cache_namespace ns key) = some e) (ht1 : e.ttl = none)
    (h2 : alGet d.store (hits_key ns) = none) :
    cw_get (liftFst dictBackend) ns key (d, g) =
      (.ok (some e.value), ({ d with
        store := alSet d.store (hits_key ns) ⟨"1", d.clock d.tick, none⟩,
        tick := d.tick + 1 }, g)) := by
  simp [cw_get, liftFst, dictBackend, rbind, dict_get_nottl h1 ht1, dict_increase_absent 1 h2,
    show toString (1 : Int) = "1" from rfl]

/-- A wrapped function that always raises the do-not-cache signal, with a
payload depending on how often it has been invoked (the invocation log is
the second state component; the test suite uses a strictly increasing
timer the same way). -/
def dncFunc {A V β : Type} (m nm : String) (payload : ℕ → β) :
    PyFunc A V β (DS × List (A × List (String × V))) :=
  ⟨m, nm, fun a k st => (.doNotCache (payload st.2.length), (st.1, st.2 ++ [(a, k)]))⟩

/-- C4, amended: when the wrapped function raises the do-not-cache signal,
the memoized call returns the payload normally (the signal is not
re-raised), nothing is written to the cache region and no cost sample is
stored — the only backend write is the monitoring miss-counter increment
that every miss performs — and a subsequent call with the same arguments
misses again and invokes the underlying function a second time, receiving
its new payload.  The backend store after each call holds exactly the
miss counter. -/
theorem C4_main {A V β : Type} (P : Pickle A V β) (truthy : V → Bool)
    (ns m nm : String) (payload : ℕ → β) (dflt : Option ℚ) (args : A)
    (kwargs : List (String × V)) (clock : ℕ → ℚ) (t1 t2 t3 t4 : ℚ)
    (hflag : alGet kwargs "update_auto_cache" = none) :
    wrapper_call (liftFst dictBackend) P truthy ns dflt (dncFunc m nm payload)
        args kwargs t1 t2 (⟨[], clock, 0⟩, []) =
      (.ok (payload 0),
        (⟨[(misses_key ns, ⟨"1", clock 0, none⟩)], clock, 1⟩, [(args, kwargs)])) ∧
    wrapper_call (liftFst dictBackend) P truthy ns dflt (dncFunc m nm payload)
        args kwargs t3 t4
        (⟨[(misses_key ns, ⟨"1", clock 0, none⟩)], clock, 1⟩, [(args, kwargs)]) =
      (.ok (payload 1),
        (⟨[(misses_key ns, ⟨"2", clock 1, none⟩)], clock, 2⟩,
          [(args, kwargs), (args, kwargs)])) := by
  have nmc : misses_key ns ≠ add_cache_namespace ns
      (get_cache_key P (dncFunc m nm payload) args kwargs) := by
    rw [misses_key]
    exact (cache_key_ne_monitoring ns _ "misses" "*").symm
  constructor
  · have hread : read_cache (liftFst dictBackend) P ns (dncFunc m nm payload) args kwargs
        ((⟨[], clock, 0⟩ : DS), ([] : List (A × List (String × V)))) =
        (.error .cacheMiss, (⟨[(misses_key ns, ⟨"1", clock 0, none⟩)], clock, 1⟩, [])) := by
      have hcw : cw_get (liftFst dictBackend) ns
          (get_cache_key P (dncFunc m nm payload) args kwargs)
          ((⟨[], clock, 0⟩ : DS), ([] : List (A × List (String × V)))) =
          (.ok none, ((⟨[(misses_key ns, ⟨"1", clock 0, none⟩)], clock, 1⟩ : DS),
            ([] : List (A × List (String × V))))) :=
        cw_get_miss_stepL (get_cache_key P (dncFunc m nm payload) args kwargs) rfl rfl
      unfold read_cache
      rw [hcw]
      rfl
    unfold wrapper_call
    simp only [pyPop, hflag, alDel_of_alGet_none kwargs "update_auto_cache" hflag,
      Bool.false_eq_true, if_false]
    rw [hread]
    rfl
  · have h1 : alGet ([(misses_key ns, ⟨"1", clock 0, none⟩)] : List (String × DEntry))
        (add_cache_namespace ns (get_cache_key P (dncFunc m nm payload) args kwargs)) =
        none := by
      simp [nmc]
    have h2 : alGet ([(misses_key ns, ⟨"1", clock 0, none⟩)] : List (String × DEntry))
        (misses_key ns) = some ⟨"1", clock 0, none⟩ := by
      simp
    have hread : read_cache (liftFst dictBackend) P ns (dncFunc m nm payload) args kwargs
        ((⟨[(misses_key ns, ⟨"1", clock 0, none⟩)], clock, 1⟩ : DS),
          [(args, kwargs)]) =
        (.error .cacheMiss,
          (⟨[(misses_key ns, ⟨"2", clock 1, none⟩)], clock, 2⟩, [(args, kwargs)])) := by
      have hcw : cw_get (liftFst dictBackend) ns
          (get_cache_key P (dncFunc m nm payload) args kwargs)
          ((⟨[(misses_key ns, ⟨"1", clock 0, none⟩)], clock, 1⟩ : DS),
            [(args, kwargs)]) =
          (.ok none, ((⟨[(misses_key ns,
              ⟨toString ((strToNat "1" : Int) + 1), clock 1, none⟩)], clock, 2⟩ : DS),
            [(args, kwargs)])) := by
        rw [@cw_get_miss_step2L (List (A × List (String × V)))
          ⟨[(misses_key ns, ⟨"1", clock 0, none⟩)], clock, 1⟩ [(args, kwargs)] ns
          ⟨"1", clock 0, none⟩ (get_cache_key P (dncFunc m nm payload) args kwargs)
          h1 h2 rfl rfl]
        simp
      unfold read_cache
      rw [hcw]
      rfl
    unfold wrapper_call
    simp only [pyPop, hflag, alDel_of_alGet_none kwargs "update_auto_cache" hflag,
      Bool.false_eq_true, if_false]
    rw [hread]
    rfl

/-- A wrapped function over the plain in-memory backend that always raises
the do-not-cache signal with payload 7. -/
def dnc7 : PyFunc Unit Unit ℕ DS := ⟨"m", "f", fun _ _ s => (.doNotCache 7, s)⟩

/-- C4, counterexample: the claim asserts the memoized call writes nothing
to the backend when the function raises the do-not-cache signal; at a
concrete fresh backend the call returns the payload but the backend store
afterwards is not empty — the monitoring miss counter was written by the
cache read that preceded the computation. -/
theorem C4_counterexample :
    (wrapper_call dictBackend natPickle (fun _ => true) "n" none dnc7 () [] 0 0
        ⟨[], fun _ => 0, 0⟩).1 = .ok 7 ∧
    (wrapper_call dictBackend natPickle (fun _ => true) "n" none dnc7 () [] 0 0
        ⟨[], fun _ => 0, 0⟩).2.store = [(misses_key "n", ⟨"1", 0, none⟩)] ∧
    [(misses_key "n", (⟨"1", 0, none⟩ : DEntry))] ≠ ([] : List (String × DEntry)) :=
  ⟨rfl, rfl, by simp⟩

/-- C4, witness: the amended do-not-cache behavior at concrete inputs —
two successive calls return the two distinct payloads, invoke the function
twice, and leave only the miss counter in the backend. -/
theorem C4_witness :
    alGet ([] : List (String × Unit)) "update_auto_cache" = none ∧
    wrapper_call (liftFst dictBackend) natPickle (fun _ => true) "n" none
        (dncFunc "m" "f" (fun i => i)) () [] 0 0 (⟨[], fun _ => 0, 0⟩, []) =
      (.ok 0, (⟨[(misses_key "n", ⟨"1", 0, none⟩)], fun _ => 0, 1⟩, [((), [])])) ∧
    wrapper_call (liftFst dictBackend) natPickle (fun _ => true) "n" none
        (dncFunc "m" "f" (fun i => i)) () [] 0 0
        (⟨[(misses_key "n", ⟨"1", 0, none⟩)], fun _ => 0, 1⟩, [((), [])]) =
      (.ok 1, (⟨[(misses_key "n", ⟨"2", 0, none⟩)], fun _ => 0, 2⟩,
        [((), []), ((), [])])) :=
  ⟨rfl,
   (C4_main natPickle (fun _ => true) "n" "m" "f" (fun i => i) none () []
     (fun _ => 0) 0 0 0 0 rfl).1,
   (C4_main natPickle (fun _ => true) "n" "m" "f" (fun i => i) none () []
     (fun _ => 0) 0 0 0 0 rfl).2⟩

theorem ac_setL_fresh {γ : Type} {d : DS} {g : γ} {ns : String} (key value tc : String)
    (h1 : alGet d.store (time_cost_key ns key) = none)
    (h2 : alGet d.store (add_cache_namespace ns key) = none) :
    ac_set (liftFst dictBackend) ns none key value none false false tc (d, g) =
      (.ok true, ({ d with
        store := alSet (alSet d.store (time_cost_key ns key) ⟨tc, d.clock d.tick, none⟩)
          (add_cache_namespace ns key) ⟨value, d.clock (d.tick + 1), none⟩,
        tick := d.tick + 2 }, g)) := by
  have hne : time_cost_key ns key ≠ add_cache_namespace ns key := by
    rw [time_cost_key]
    exact (cache_key_ne_monitoring ns key "time_cost" key).symm
  have h3 : alGet ({ d with
      store := alSet d.store (time_cost_key ns key) ⟨tc, d.clock d.tick, none⟩,
      tick := d.tick + 1 } : DS).store (add_cache_namespace ns key) = none := by
    show alGet (alSet d.store (time_cost_key ns key) ⟨tc, d.clock d.tick, none⟩)
      (add_cache_namespace ns key) = none
    rw [alGet_alSet_ne _ _ _ _ hne]
    exact h2
  simp [ac_set, cw_set, liftFst, dictBackend, rbind, dict_set_write_of_absent tc none h1,
    dict_set_write_of_absent value none h3]

theorem ac_setL_over {γ : Type} {d : DS} {g : γ} {ns : String} {e1 e2 : DEntry}
    (key value tc : String)
    (h1 : alGet d.store (time_cost_key ns key) = some e1) (ht1 : e1.ttl = none)
    (h2 : alGet d.store (add_cache_namespace ns key) = some e2) (ht2 : e2.ttl = none) :
    ac_set (liftFst dictBackend) ns none key value none false false tc (d, g) =
      (.ok true, ({ d with
        store := alSet (alSet d.store (time_cost_key ns key) ⟨tc, d.clock d.tick, none⟩)
          (add_cache_namespace ns key) ⟨value, d.clock (d.tick + 1), none⟩,
        tick := d.tick + 2 }, g)) := by
  have hne : time_cost_key ns key ≠ add_cache_namespace ns key := by
    rw [time_cost_key]
    exact (cache_key_ne_monitoring ns key "time_cost" key).symm
  have h3 : alGet ({ d with
      store := alSet d.store (time_cost_key ns key) ⟨tc, d.clock d.tick, none⟩,
      tick := d.tick + 1 } : DS).store (add_cache_namespace ns key) = some e2 := by
    show alGet (alSet d.store (time_cost_key ns key) ⟨tc, d.clock d.tick, none⟩)
      (add_cache_namespace ns key) = some e2
    rw [alGet_alSet_ne _ _ _ _ hne]
    exact h2
  simp [ac_set, cw_set, liftFst, dictBackend, rbind, dict_set_write_of_nottl tc none h1 ht1,
    dict_set_write_of_nottl value none h3 ht2]

/-- A wrapped function that returns `g args kwargs` normally and appends
the arguments it was invoked with to the invocation log (the second state
component), so the log length counts invocations of the underlying
function and its entries show exactly what was forwarded. -/
def logFunc {A V β : Type} (m nm : String) (g : A → List (String × V) → β) :
    PyFunc A V β (DS × List (A × List (String × V))) :=
  ⟨m, nm, fun a k st => (.normal (g a k), (st.1, st.2 ++ [(a, k)]))⟩

theorem wrapper_call_forced {A V β σ : Type} (B : Backend σ) (P : Pickle A V β)
    (truthy : V → Bool) (ns : String) (dflt : Option ℚ) (f : PyFunc A V β σ)
    (args : A) (kwargs kw2 : List (String × V)) (vT : V) (t1 t2 : ℚ) (s : σ)
    (hpop : pyPop kwargs "update_auto_cache" = (some vT, kw2))
    (hT : truthy vT = true) :
    wrapper_call B P truthy ns dflt f args kwargs t1 t2 s =
      update_cache B P ns dflt f args kw2 t1 t2 s := by
  unfold wrapper_call
  rw [hpop]
  simp [hT]

/-- C3: over a fresh backend, the first memoized call invokes the
underlying function (the invocation log gains one entry), stores the
pickled result with a cost sample, and returns the computed value; a
second call with identical arguments returns the same value without
invoking the function again (the log is unchanged — exactly one invocation
across both calls); a call passing the forced-recompute flag
`update_auto_cache` invokes the function again and overwrites the stored
result and cost sample with fresh timestamps, and the flag is consumed:
the logged invocations show the function received only the original
keyword arguments, never the flag. -/
theorem C3_main {A V β : Type} (P : Pickle A V β) (truthy : V → Bool)
    (ns m nm : String) (g : A → List (String × V) → β) (args : A)
    (kwargs : List (String × V)) (clock : ℕ → ℚ) (vT : V) (t1 t2 t3 t4 t5 t6 : ℚ)
    (hflag : alGet kwargs "update_auto_cache" = none)
    (hP : P.loads (P.dumps (g args kwargs)) = some (g args kwargs))
    (hT : truthy vT = true) :
    wrapper_call (liftFst dictBackend) P truthy ns none (logFunc m nm g)
        args kwargs t1 t2 (⟨[], clock, 0⟩, []) =
      (.ok (g args kwargs),
        (⟨[(misses_key ns, ⟨"1", clock 0, none⟩),
           (time_cost_key ns (get_cache_key P (logFunc m nm g) args kwargs),
             ⟨floatStr (t2 - t1), clock 1, none⟩),
           (add_cache_namespace ns (get_cache_key P (logFunc m nm g) args kwargs),
             ⟨P.dumps (g args kwargs), clock 2, none⟩)], clock, 3⟩,
         [(args, kwargs)])) ∧
    wrapper_call (liftFst dictBackend) P truthy ns none (logFunc m nm g)
        args kwargs t3 t4
        (⟨[(misses_key ns, ⟨"1", clock 0, none⟩),
           (time_cost_key ns (get_cache_key P (logFunc m nm g) args kwargs),
             ⟨floatStr (t2 - t1), clock 1, none⟩),
           (add_cache_namespace ns (get_cache_key P (logFunc m nm g) args kwargs),
             ⟨P.dumps (g args kwargs), clock 2, none⟩)], clock, 3⟩,
         [(args, kwargs)]) =
      (.ok (g args kwargs),
        (⟨[(misses_key ns, ⟨"1", clock 0, none⟩),
           (time_cost_key ns (get_cache_key P (logFunc m nm g) args kwargs),
             ⟨floatStr (t2 - t1), clock 1, none⟩),
           (add_cache_namespace ns (get_cache_key P (logFunc m nm g) args kwargs),
             ⟨P.dumps (g args kwargs), clock 2, none⟩),
           (hits_key ns, ⟨"1", clock 3, none⟩)], clock, 4⟩,
         [(args, kwargs)])) ∧
    wrapper_call (liftFst dictBackend) P truthy ns none (logFunc m nm g)
        args (kwargs ++ [("update_auto_cache", vT)]) t5 t6
        (⟨[(misses_key ns, ⟨"1", clock 0, none⟩),
           (time_cost_key ns (get_cache_key P (logFunc m nm g) args kwargs),
             ⟨floatStr (t2 - t1), clock 1, none⟩),
           (add_cache_namespace ns (get_cache_key P (logFunc m nm g) args kwargs),
             ⟨P.dumps (g args kwargs), clock 2, none⟩),
           (hits_key ns, ⟨"1", clock 3, none⟩)], clock, 4⟩,
         [(args, kwargs)]) =
      (.ok (g args kwargs),
        (⟨[(misses_key ns, ⟨"1", clock 0, none⟩),
           (time_cost_key ns (get_cache_key P (logFunc m nm g) args kwargs),
             ⟨floatStr (t6 - t5), clock 4, none⟩),
           (add_cache_namespace ns (get_cache_key P (logFunc m nm g) args kwargs),
             ⟨P.dumps (g args kwargs), clock 5, none⟩),
           (hits_key ns, ⟨"1", clock 3, none⟩)], clock, 6⟩,
         [(args, kwargs), (args, kwargs)])) := by
  have ntm : time_cost_key ns (get_cache_key P (logFunc m nm g) args kwargs) ≠
      misses_key ns := time_cost_key_ne_misses ns _
  have nth : time_cost_key ns (get_cache_key P (logFunc m nm g) args kwargs) ≠
      hits_key ns := time_cost_key_ne_hits ns _
  have ncm : add_cache_namespace ns (get_cache_key P (logFunc m nm g) args kwargs) ≠
      misses_key ns := by
    rw [misses_key]; exact cache_key_ne_monitoring ns _ "misses" "*"
  have nch : add_cache_namespace ns (get_cache_key P (logFunc m nm g) args kwargs) ≠
      hits_key ns := by
    rw [hits_key]; exact cache_key_ne_monitoring ns _ "hits" "*"
  have ntc : time_cost_key ns (get_cache_key P (logFunc m nm g) args kwargs) ≠
      add_cache_namespace ns (get_cache_key P (logFunc m nm g) args kwargs) := by
    rw [time_cost_key]; exact (cache_key_ne_monitoring ns _ "time_cost" _).symm
  have nmh : misses_key ns ≠ hits_key ns := (hits_key_ne_misses ns).symm
  refine ⟨?_, ?_, ?_⟩
  · -- first call: miss, compute, store
    have hread : read_cache (liftFst dictBackend) P ns (logFunc m nm g) args kwargs
        ((⟨[], clock, 0⟩ : DS), ([] : List (A × List (String × V)))) =
        (.error .cacheMiss,
          (⟨[(misses_key ns, ⟨"1", clock 0, none⟩)], clock, 1⟩, [])) := by
      have hcw : cw_get (liftFst dictBackend) ns
          (get_cache_key P (logFunc m nm g) args kwargs)
          ((⟨[], clock, 0⟩ : DS), ([] : List (A × List (String × V)))) =
          (.ok none, ((⟨[(misses_key ns, ⟨"1", clock 0, none⟩)], clock, 1⟩ : DS),
            ([] : List (A × List (String × V))))) :=
        cw_get_miss_stepL (get_cache_key P (logFunc m nm g) args kwargs) rfl rfl
      unfold read_cache
      rw [hcw]
      rfl
    have hset : ac_set (liftFst dictBackend) ns none
        (get_cache_key P (logFunc m nm g) args kwargs) (P.dumps (g args kwargs))
        none false false (floatStr (t2 - t1))
        ((⟨[(misses_key ns, ⟨"1", clock 0, none⟩)], clock, 1⟩ : DS),
          [(args, kwargs)]) =
        (.ok true,
          (⟨[(misses_key ns, ⟨"1", clock 0, none⟩),
             (time_cost_key ns (get_cache_key P (logFunc m nm g) args kwargs),
               ⟨floatStr (t2 - t1), clock 1, none⟩),
             (add_cache_namespace ns (get_cache_key P (logFunc m nm g) args kwargs),
               ⟨P.dumps (g args kwargs), clock 2, none⟩)], clock, 3⟩,
           [(args, kwargs)])) := by
      rw [@ac_setL_fresh (List (A × List (String × V)))
        ⟨[(misses_key ns, ⟨"1", clock 0, none⟩)], clock, 1⟩ [(args, kwargs)] ns
        (get_cache_key P (logFunc m nm g) args kwargs) (P.dumps (g args kwargs))
        (floatStr (t2 - t1)) (by simp [Ne.symm ntm]) (by simp [Ne.symm ncm])]
      simp [Ne.symm ntm, Ne.symm ncm, ntc]
    unfold wrapper_call
    simp only [pyPop, hflag, alDel_of_alGet_none kwargs "update_auto_cache" hflag,
      Bool.false_eq_true, if_false]
    rw [hread]
    show rbind (ac_set (liftFst dictBackend) ns none
        (get_cache_key P (logFunc m nm g) args kwargs) (P.dumps (g args kwargs))
        none false false (floatStr (t2 - t1))
        ((⟨[(misses_key ns, ⟨"1", clock 0, none⟩)], clock, 1⟩ : DS), [(args, kwargs)]))
      (fun _ s2 => (Except.ok (g args kwargs), s2)) = _
    rw [hset]
    rfl
  · -- second call: hit, no invocation
    have h1 : alGet ([(misses_key ns, ⟨"1", clock 0, none⟩),
        (time_cost_key ns (get_cache_key P (logFunc m nm g) args kwargs),
          ⟨floatStr (t2 - t1), clock 1, none⟩),
        (add_cache_namespace ns (get_cache_key P (logFunc m nm g) args kwargs),
          ⟨P.dumps (g args kwargs), clock 2, none⟩)] : List (String × DEntry))
        (add_cache_namespace ns (get_cache_key P (logFunc m nm g) args kwargs)) =
        some ⟨P.dumps (g args kwargs), clock 2, none⟩ := by
      simp [ncm.symm, ntc]
    have h2 : alGet ([(misses_key ns, ⟨"1", clock 0, none⟩),
        (time_cost_key ns (get_cache_key P (logFunc m nm g) args kwargs),
          ⟨floatStr (t2 - t1), clock 1, none⟩),
        (add_cache_namespace ns (get_cache_key P (logFunc m nm g) args kwargs),
          ⟨P.dumps (g args kwargs), clock 2, none⟩)] : List (String × DEntry))
        (hits_key ns) = none := by
      simp [nmh, nth, nch]
    have hcw : cw_get (liftFst dictBackend) ns
        (get_cache_key P (logFunc m nm g) args kwargs)
        ((⟨[(misses_key ns, ⟨"1", clock 0, none⟩),
           (time_cost_key ns (get_cache_key P (logFunc m nm g) args kwargs),
             ⟨floatStr (t2 - t1), clock 1, none⟩),
           (add_cache_namespace ns (get_cache_key P (logFunc m nm g) args kwargs),
             ⟨P.dumps (g args kwargs), clock 2, none⟩)], clock, 3⟩ : DS),
          [(args, kwargs)]) =
        (.ok (some (P.dumps (g args kwargs))),
          ((⟨[(misses_key ns, ⟨"1", clock 0, none⟩),
             (time_cost_key ns (get_cache_key P (logFunc m nm g) args kwargs),
               ⟨floatStr (t2 - t1), clock 1, none⟩),
             (add_cache_namespace ns (get_cache_key P (logFunc m nm g) args kwargs),
               ⟨P.dumps (g args kwargs), clock 2, none⟩),
             (hits_key ns, ⟨"1", clock 3, none⟩)], clock, 4⟩ : DS),
            [(args, kwargs)])) := by
      rw [cw_get_hit_stepL _ h1 rfl h2]
      simp [nmh, nth, nch]
    unfold wrapper_call
    simp only [pyPop, hflag, alDel_of_alGet_none kwargs "update_auto_cache" hflag,
      Bool.false_eq_true, if_false]
    have hread2 : read_cache (liftFst dictBackend) P ns (logFunc m nm g) args kwargs
        ((⟨[(misses_key ns, ⟨"1", clock 0, none⟩),
           (time_cost_key ns (get_cache_key P (logFunc m nm g) args kwargs),
             ⟨floatStr (t2 - t1), clock 1, none⟩),
           (add_cache_namespace ns (get_cache_key P (logFunc m nm g) args kwargs),
             ⟨P.dumps (g args kwargs), clock 2, none⟩)], clock, 3⟩ : DS),
          [(args, kwargs)]) =
        (.ok (g args kwargs),
          ((⟨[(misses_key ns, ⟨"1", clock 0, none⟩),
             (time_cost_key ns (get_cache_key P (logFunc m nm g) args kwargs),
               ⟨floatStr (t2 - t1), clock 1, none⟩),
             (add_cache_namespace ns (get_cache_key P (logFunc m nm g) args kwargs),
               ⟨P.dumps (g args kwargs), clock 2, none⟩),
             (hits_key ns, ⟨"1", clock 3, none⟩)], clock, 4⟩ : DS),
            [(args, kwargs)])) := by
      unfold read_cache
      rw [hcw]
      simp [rbind, hP]
    rw [hread2]
  · -- forced call: flag consumed, recompute and overwrite
    have h1 : alGet ([(misses_key ns, ⟨"1", clock 0, none⟩),
        (time_cost_key ns (get_cache_key P (logFunc m nm g) args kwargs),
          ⟨floatStr (t2 - t1), clock 1, none⟩),
        (add_cache_namespace ns (get_cache_key P (logFunc m nm g) args kwargs),
          ⟨P.dumps (g args kwargs), clock 2, none⟩),
        (hits_key ns, ⟨"1", clock 3, none⟩)] : List (String × DEntry))
        (time_cost_key ns (get_cache_key P (logFunc m nm g) args kwargs)) =
        some ⟨floatStr (t2 - t1), clock 1, none⟩ := by
      simp [ntm.symm]
    have h2 : alGet ([(misses_key ns, ⟨"1", clock 0, none⟩),
        (time_cost_key ns (get_cache_key P (logFunc m nm g) args kwargs),
          ⟨floatStr (t2 - t1), clock 1, none⟩),
        (add_cache_namespace ns (get_cache_key P (logFunc m nm g) args kwargs),
          ⟨P.dumps (g args kwargs), clock 2, none⟩),
        (hits_key ns, ⟨"1", clock 3, none⟩)] : List (String × DEntry))
        (add_cache_namespace ns (get_cache_key P (logFunc m nm g) args kwargs)) =
        some ⟨P.dumps (g args kwargs), clock 2, none⟩ := by
      simp [ncm.symm, ntc]
    have hset : ac_set (liftFst dictBackend) ns none
        (get_cache_key P (logFunc m nm g) args kwargs) (P.dumps (g args kwargs))
        none false false (floatStr (t6 - t5))
        ((⟨[(misses_key ns, ⟨"1", clock 0, none⟩),
           (time_cost_key ns (get_cache_key P (logFunc m nm g) args kwargs),
             ⟨floatStr (t2 - t1), clock 1, none⟩),
           (add_cache_namespace ns (get_cache_key P (logFunc m nm g) args kwargs),
             ⟨P.dumps (g args kwargs), clock 2, none⟩),
           (hits_key ns, ⟨"1", clock 3, none⟩)], clock, 4⟩ : DS),
          [(args, kwargs), (args, kwargs)]) =
        (.ok true,
          (⟨[(misses_key ns, ⟨"1", clock 0, none⟩),
             (time_cost_key ns (get_cache_key P (logFunc m nm g) args kwargs),
               ⟨floatStr (t6 - t5), clock 4, none⟩),
             (add_cache_namespace ns (get_cache_key P (logFunc m nm g) args kwargs),
               ⟨P.dumps (g args kwargs), clock 5, none⟩),
             (hits_key ns, ⟨"1", clock 3, none⟩)], clock, 6⟩,
           [(args, kwargs), (args, kwargs)])) := by
      rw [@ac_setL_over (List (A × List (String × V)))
        ⟨[(misses_key ns, ⟨"1", clock 0, none⟩),
          (time_cost_key ns (get_cache_key P (logFunc m nm g) args kwargs),
            ⟨floatStr (t2 - t1), clock 1, none⟩),
          (add_cache_namespace ns (get_cache_key P (logFunc m nm g) args kwargs),
            ⟨P.dumps (g args kwargs), clock 2, none⟩),
          (hits_key ns, ⟨"1", clock 3, none⟩)], clock, 4⟩
        [(args, kwargs), (args, kwargs)] ns
        ⟨floatStr (t2 - t1), clock 1, none⟩ ⟨P.dumps (g args kwargs), clock 2, none⟩
        (get_cache_key P (logFunc m nm g) args kwargs) (P.dumps (g args kwargs))
        (floatStr (t6 - t5)) h1 rfl h2 rfl]
      simp [Ne.symm ntm, Ne.symm ncm, ntc]
    have hpop1 : alGet (kwargs ++ [("update_auto_cache", vT)]) "update_auto_cache" =
        some vT := by
      rw [alGet_append_of_none kwargs [("update_auto_cache", vT)] "update_auto_cache" hflag]
      simp
    have hpop2 : alDel (kwargs ++ [("update_auto_cache", vT)]) "update_auto_cache" =
        kwargs := by
      rw [alDel_append_of_none kwargs [("update_auto_cache", vT)] "update_auto_cache" hflag]
      simp
    have hpop : pyPop (kwargs ++ [("update_auto_cache", vT)]) "update_auto_cache" =
        (some vT, kwargs) := by
      simp [pyPop, hpop1, hpop2]
    rw [wrapper_call_forced (liftFst dictBackend) P truthy ns none (logFunc m nm g)
      args _ kwargs vT t5 t6 _ hpop hT]
    show rbind (ac_set (liftFst dictBackend) ns none
        (get_cache_key P (logFunc m nm g) args kwargs) (P.dumps (g args kwargs))
        none false false (floatStr (t6 - t5))
        ((⟨[(misses_key ns, ⟨"1", clock 0, none⟩),
           (time_cost_key ns (get_cache_key P (logFunc m nm g) args kwargs),
             ⟨floatStr (t2 - t1), clock 1, none⟩),
           (add_cache_namespace ns (get_cache_key P (logFunc m nm g) args kwargs),
             ⟨P.dumps (g args kwargs), clock 2, none⟩),
           (hits_key ns, ⟨"1", clock 3, none⟩)], clock, 4⟩ : DS),
          [(args, kwargs), (args, kwargs)]))
      (fun _ s2 => (Except.ok (g args kwargs), s2)) = _
    rw [hset]
    rfl

/-- A concrete pickle codec on naturals: decimal strings both ways. -/
def natPickle2 : Pickle ℕ ℕ ℕ where
  dumpsArgs := fun a _ => toString a
  dumps := fun n => toString n
  loads := fun s => if pyIsDigit s then some (strToNat s) else none

/-- C3, witness: the memoization behavior at concrete inputs — first call
computes and stores, second call hits without invoking, forced call
recomputes and overwrites, flag consumed. -/
theorem C3_witness :
    alGet ([] : List (String × ℕ)) "update_auto_cache" = none ∧
    natPickle2.loads (natPickle2.dumps 7) = some 7 ∧
    ((fun v => v != 0) (1 : ℕ)) = true ∧
    wrapper_call (liftFst dictBackend) natPickle2 (fun v => v != 0) "n" none
        (logFunc "mod" "f" (fun _ _ => 7)) 0 [] 0 0 (⟨[], fun _ => 0, 0⟩, []) =
      (.ok 7,
        (⟨[(misses_key "n", ⟨"1", 0, none⟩),
           (time_cost_key "n"
              (get_cache_key natPickle2 (logFunc "mod" "f" (fun _ _ => 7)) 0 []),
             ⟨floatStr (0 - 0), 0, none⟩),
           (add_cache_namespace "n"
              (get_cache_key natPickle2 (logFunc "mod" "f" (fun _ _ => 7)) 0 []),
             ⟨"7", 0, none⟩)], fun _ => 0, 3⟩,
         [(0, [])])) ∧
    wrapper_call (liftFst dictBackend) natPickle2 (fun v => v != 0) "n" none
        (logFunc "mod" "f" (fun _ _ => 7)) 0 [] 0 0
        (⟨[(misses_key "n", ⟨"1", 0, none⟩),
           (time_cost_key "n"
              (get_cache_key natPickle2 (logFunc "mod" "f" (fun _ _ => 7)) 0 []),
             ⟨floatStr (0 - 0), 0, none⟩),
           (add_cache_namespace "n"
              (get_cache_key natPickle2 (logFunc "mod" "f" (fun _ _ => 7)) 0 []),
             ⟨"7", 0, none⟩)], fun _ => 0, 3⟩,
         [(0, [])]) =
      (.ok 7,
        (⟨[(misses_key "n", ⟨"1", 0, none⟩),
           (time_cost_key "n"
              (get_cache_key natPickle2 (logFunc "mod" "f" (fun _ _ => 7)) 0 []),
             ⟨floatStr (0 - 0), 0, none⟩),
           (add_cache_namespace "n"
              (get_cache_key natPickle2 (logFunc "mod" "f" (fun _ _ => 7)) 0 []),
             ⟨"7", 0, none⟩),
           (hits_key "n", ⟨"1", 0, none⟩)], fun _ => 0, 4⟩,
         [(0, [])])) ∧
    wrapper_call (liftFst dictBackend) natPickle2 (fun v => v != 0) "n" none
        (logFunc "mod" "f" (fun _ _ => 7)) 0 [("update_auto_cache", 1)] 0 0
        (⟨[(misses_key "n", ⟨"1", 0, none⟩),
           (time_cost_key "n"
              (get_cache_key natPickle2 (logFunc "mod" "f" (fun _ _ => 7)) 0 []),
             ⟨floatStr (0 - 0), 0, none⟩),
           (add_cache_namespace "n"
              (get_cache_key natPickle2 (logFunc "mod" "f" (fun _ _ => 7)) 0 []),
             ⟨"7", 0, none⟩),
           (hits_key "n", ⟨"1", 0, none⟩)], fun _ => 0, 4⟩,
         [(0, [])]) =
      (.ok 7,
        (⟨[(misses_key "n", ⟨"1", 0, none⟩),
           (time_cost_key "n"
              (get_cache_key natPickle2 (logFunc "mod" "f" (fun _ _ => 7)) 0 []),
             ⟨floatStr (0 - 0), 0, none⟩),
           (add_cache_namespace "n"
              (get_cache_key natPickle2 (logFunc "mod" "f" (fun _ _ => 7)) 0 []),
             ⟨"7", 0, none⟩),
           (hits_key "n", ⟨"1", 0, none⟩)], fun _ => 0, 6⟩,
         [(0, []), (0, [])])) :=
  ⟨rfl, rfl, rfl,
   (C3_main natPickle2 (fun v => v != 0) "n" "mod" "f" (fun _ _ => 7) 0 []
     (fun _ => 0) 1 0 0 0 0 0 0 rfl rfl rfl).1,
   (C3_main natPickle2 (fun v => v != 0) "n" "mod" "f" (fun _ _ => 7) 0 []
     (fun _ => 0) 1 0 0 0 0 0 0 rfl rfl rfl).2.1,
   (C3_main natPickle2 (fun v => v != 0) "n" "mod" "f" (fun _ _ => 7) 0 []
     (fun _ => 0) 1 0 0 0 0 0 0 rfl rfl rfl).2.2⟩

/-- C9, witness: the hit-rate facts at a concrete namespace and clock —
the formula applied to the 3-miss-1-hit state, the fresh-state clear, and
the final 0.25 hit rate. -/
theorem C9_witness :
    cw_hits dictBackend "n" (c9s "n" (fun _ => 0) 5) = (.ok 1, c9s "n" (fun _ => 0) 5) ∧
    cw_misses dictBackend "n" (c9s "n" (fun _ => 0) 5) = (.ok 3, c9s "n" (fun _ => 0) 5) ∧
    cw_hit_rate dictBackend "n" (c9s "n" (fun _ => 0) 5) =
      (.ok (if (1 : Int) + 3 = 0 then 0
            else ((1 : Int) : ℚ) / (((1 : Int) : ℚ) + ((3 : Int) : ℚ))),
        c9s "n" (fun _ => 0) 5) ∧
    cw_clear dictBackend "n" ⟨[], fun _ => 0, 0⟩ = (.ok 0, ⟨[], fun _ => 0, 0⟩) ∧
    cw_hit_rate dictBackend "n" ⟨[], fun _ => 0, 0⟩ = (.ok 0, ⟨[], fun _ => 0, 0⟩) ∧
    cw_hit_rate dictBackend "n" (c9s "n" (fun _ => 0) 5) =
      (.ok (1/4 : ℚ), c9s "n" (fun _ => 0) 5) :=
  ⟨rfl, rfl,
   C9_main.1 dictBackend "n" (c9s "n" (fun _ => 0) 5) (c9s "n" (fun _ => 0) 5)
     (c9s "n" (fun _ => 0) 5) 1 3 rfl rfl,
   (C9_main.2.1 "n" (fun _ => 0)).1,
   (C9_main.2.1 "n" (fun _ => 0)).2,
   (C9_main.2.2 "n" (fun _ => 0)).2.2.2.2.2.2.2⟩
